import Mathlib

/-!
# Verification of the vidENG reading-session controller

Shallow embedding of the reading-session controller of the vidENG mobile
reading app (`ImageBookReaderScreen`, `bookService`, `audioService`,
`QuizScreen`).  JS plain objects used as page-indexed maps are modelled as
association lists with last-write-wins insertion; React `useState` updates
are modelled by sequential state threading; `Date` fields are omitted
throughout (no claim depends on wall-clock values).  Firestore documents
live in an explicit `Store`.
-/

namespace VidEng

/-! ## Association-list maps (JS object maps) -/

/-- Lookup in a JS-object-style map (`m[k]`), `none` when the key is absent. -/
def lookupK {κ α : Type} [DecidableEq κ] (m : List (κ × α)) (k : κ) : Option α :=
  match m with
  | [] => none
  | (k', v) :: rest => if k' = k then some v else lookupK rest k

/-- Lookup with a default (`m[k] ?? d`). -/
def lookupD {κ α : Type} [DecidableEq κ] (m : List (κ × α)) (k : κ) (d : α) : α :=
  (lookupK m k).getD d

/-- Assignment `m[k] = v` (replace if present, append otherwise). -/
def insertK {κ α : Type} [DecidableEq κ] (m : List (κ × α)) (k : κ) (v : α) : List (κ × α) :=
  match m with
  | [] => [(k, v)]
  | (k', v') :: rest => if k' = k then (k, v) :: rest else (k', v') :: insertK rest k v

/-- JS object spread `{...base, ...upd}`: entries of `upd` override `base`. -/
def mergeK {κ α : Type} [DecidableEq κ] (base upd : List (κ × α)) : List (κ × α) :=
  upd.foldl (fun acc e => insertK acc e.1 e.2) base

@[simp] theorem lookupK_nil {κ α : Type} [DecidableEq κ] (k : κ) :
    lookupK ([] : List (κ × α)) k = none := rfl

/-- Keys of a map. -/
def keysK {κ α : Type} (m : List (κ × α)) : List κ := m.map Prod.fst

/-- JS numeric `a || b` (`0` is falsy). -/
def jsOrN (a b : Nat) : Nat := if a = 0 then b else a

@[simp] theorem jsOrN_zero (b : Nat) : jsOrN 0 b = b := rfl

/-! ## Data model -/

/-- One entry of the persisted `pageTimers` map (`src/unnamed/part_003`,
`finalizePageTime` / `persistCapForPage`).  The `startTime` date field is
omitted; `recordedTotalSeconds` and `isCapped` are optional because older
records (and records rewritten by `finalizePageTime`) lack them. -/
structure PageTimer where
  pageNumber : Nat
  totalTime : Nat
  exceedanceCount : Nat
  isCompleted : Bool
  recordedTotalSeconds : Option Nat
  isCapped : Option Bool
  deriving Repr, DecidableEq

/-- The persisted `BookProgress` document (dates and the diagnostic
top-level `exceedanceCount` cast omitted).  `lifelineUsed` is optional:
`finalizePageTime` writes a document without the field. -/
structure BookProgress where
  bookId : String
  userId : String
  currentPage : Nat
  totalPages : Nat
  isCompleted : Bool
  isSubmitted : Bool
  pageTimers : List (Nat × PageTimer)
  lifelineUsed : Option Bool
  penaltyCount : Nat
  deriving Repr, DecidableEq

/-- Book category (`book.category`). -/
inductive Category
  | intensive
  | extensive
  deriving Repr, DecidableEq

/-- A remote audio segment stored by `storageService.uploadAudioFile`;
`seq` models the `Date.now()` timestamp in the storage key (fresh per
upload, not idempotent). -/
structure AudioFile where
  userId : String
  bookId : String
  grade : Nat
  page : Nat
  seq : Nat
  deriving Repr, DecidableEq

/-- The remote Firestore/Storage state touched by the session controller. -/
structure Store where
  progressDocs : List ((String × String) × BookProgress)
  audioFiles : List AudioFile
  deriving Repr, DecidableEq

/-- The React component state of `ImageBookReaderScreen` (presentation-only
fields such as `imageLoading`, toasts and modal text omitted). -/
structure ReaderState where
  currentPage : Nat
  progress : Option BookProgress
  timersByPage : List (Nat × Nat)
  recordedByPage : List (Nat × Nat)
  cappedByPage : List (Nat × Bool)
  exceededPages : List (Nat × Bool)
  lifelineUsed : Bool
  recordingStopped : Bool
  pageTime : Nat
  overtimeTriggered : Bool
  isRecording : Bool
  recordingsByPage : List (Nat × List String)
  isUploading : Bool
  uploadProgress : Nat
  timeLimitVisible : Bool
  deriving Repr, DecidableEq

/-- Fresh component state at mount. -/
def initialReaderState : ReaderState :=
  { currentPage := 1
    progress := none
    timersByPage := []
    recordedByPage := []
    cappedByPage := []
    exceededPages := []
    lifelineUsed := false
    recordingStopped := false
    pageTime := 0
    overtimeTriggered := false
    isRecording := false
    recordingsByPage := []
    isUploading := false
    uploadProgress := 0
    timeLimitVisible := false }

/-! ### Derived accessors -/

/-- `progress?.pageTimers || {}`. -/
def basePT (st : ReaderState) : List (Nat × PageTimer) :=
  match st.progress with
  | none => []
  | some prog => prog.pageTimers

/-- `progress?.pageTimers?.[page]`. -/
def persistedTimer (st : ReaderState) (p : Nat) : Option PageTimer :=
  match st.progress with
  | none => none
  | some prog => lookupK prog.pageTimers p

/-- `progress?.pageTimers?.[page]?.totalTime || 0`. -/
def pTotal (st : ReaderState) (p : Nat) : Nat :=
  ((persistedTimer st p).map PageTimer.totalTime).getD 0

/-- `progress?.pageTimers?.[page]?.recordedTotalSeconds || 0`. -/
def pRec (st : ReaderState) (p : Nat) : Nat :=
  ((persistedTimer st p).bind PageTimer.recordedTotalSeconds).getD 0

/-- `progress?.pageTimers?.[page]?.isCapped`. -/
def pCapFlag (st : ReaderState) (p : Nat) : Option Bool :=
  (persistedTimer st p).bind PageTimer.isCapped

/-- `timersByPage[p] ?? 0`. -/
def timersD (st : ReaderState) (p : Nat) : Nat := lookupD st.timersByPage p 0

/-- `recordedByPage[p] ?? 0`. -/
def recD (st : ReaderState) (p : Nat) : Nat := lookupD st.recordedByPage p 0

/-- `cappedByPage[p] === true`. -/
def cappedD (st : ReaderState) (p : Nat) : Bool := lookupD st.cappedByPage p false

/-- `exceededPages[p] === true`. -/
def exceededD (st : ReaderState) (p : Nat) : Bool := lookupD st.exceededPages p false

/-! ## Adapters and persistence -/

/-- `bookService.updateBookProgress` (`src/unnamed/part_008`): upsert the
document keyed `userId_bookId`.  Firestore deep-merge of nested maps is
modelled as document replacement; no verified claim depends on
field-level merge. -/
def updateBookProgress (store : Store) (prog : BookProgress) : Store :=
  { store with progressDocs := insertK store.progressDocs (prog.userId, prog.bookId) prog }

/-- `stopCurrentRecording` (`src/unnamed/part_003:414`): stop the adapter
and append the returned local path (if any) to `recordingsByPage` for the
current page.  `pathOpt` is the value returned by
`audioService.stopRecording()` (the capture adapter is external). -/
def stopCurrentRecording (pathOpt : Option String) (st : ReaderState) : ReaderState :=
  let st := { st with isRecording := false }
  match pathOpt with
  | none => st
  | some path =>
    let existing := lookupD st.recordingsByPage st.currentPage []
    { st with recordingsByPage := insertK st.recordingsByPage st.currentPage (existing ++ [path]) }

/-- `finalizePageTime` (`src/unnamed/part_003:312`): write the absolute
stopwatch value of `page` into a rebuilt `BookProgress` (note: the rebuilt
page entry carries no `recordedTotalSeconds`/`isCapped` field, and the
rebuilt document carries no `lifelineUsed` field), persist it and set it
as the local `progress`.  The persistence-error catch branch is not
modelled (no-failure store). -/
def finalizePageTime (bookId userId : String) (totalPages page : Nat)
    (st : ReaderState) (store : Store) : BookProgress × ReaderState × Store :=
  let basePageTimers := basePT st
  let prevEx := match lookupK basePageTimers page with
    | some t => t.exceedanceCount
    | none => 0
  let absolute := lookupD st.timersByPage page 0
  let entry : PageTimer :=
    { pageNumber := page
      totalTime := absolute
      exceedanceCount := prevEx
      isCompleted := true
      recordedTotalSeconds := none
      isCapped := none }
  let updated : BookProgress :=
    { bookId := bookId
      userId := userId
      currentPage := page
      totalPages := totalPages
      isCompleted := false
      isSubmitted := false
      pageTimers := insertK basePageTimers page entry
      lifelineUsed := none
      penaltyCount := match st.progress with | some pr => pr.penaltyCount | none => 0 }
  (updated, { st with progress := some updated }, updateBookProgress store updated)

/-- `persistCapForPage` (`src/unnamed/part_003:567`): persist cap state and
recorded seconds for a page (`recordedTotalSeconds` clamped to 600,
`isCapped := true`). -/
def persistCapForPage (bookId userId : String) (totalPages page recordedSeconds : Nat)
    (st : ReaderState) (store : Store) : ReaderState × Store × BookProgress :=
  let basePageTimers := basePT st
  let absolute := match lookupK st.timersByPage page with
    | some v => v
    | none => ((lookupK basePageTimers page).map PageTimer.totalTime).getD 0
  let prevT := lookupK basePageTimers page
  let entry : PageTimer :=
    { pageNumber := page
      totalTime := absolute
      exceedanceCount := (prevT.map PageTimer.exceedanceCount).getD 0
      isCompleted := true
      recordedTotalSeconds := some (min 600 recordedSeconds)
      isCapped := some true }
  let updated : BookProgress :=
    { bookId := bookId
      userId := userId
      currentPage := page
      totalPages := totalPages
      isCompleted := match st.progress with | some pr => pr.isCompleted | none => false
      isSubmitted := match st.progress with | some pr => pr.isSubmitted | none => false
      pageTimers := insertK basePageTimers page entry
      lifelineUsed := match st.progress with | some pr => pr.lifelineUsed | none => none
      penaltyCount := match st.progress with | some pr => pr.penaltyCount | none => 0 }
  ({ st with progress := some updated }, updateBookProgress store updated, updated)

/-! ## The 1 Hz tick -/

/-- Result of one iteration of the 1-second interval: the new component
state, the store, whether `audioService.stopRecording` was invoked, and
the progress document persisted synchronously within this tick (if any). -/
structure TickResult where
  state : ReaderState
  store : Store
  stoppedAdapter : Bool
  persisted : Option BookProgress
  deriving Repr, DecidableEq

/-- One iteration of the interval of `src/unnamed/part_003:149-193`:
advance the current page stopwatch; in the intensive category accumulate
`recordedByPage` while recording and, on reaching the 600-second cap,
stop the recorder, mark the page capped and persist at once. -/
def tick (category : Category) (bookId userId : String) (totalPages : Nat)
    (st : ReaderState) (store : Store) : TickResult :=
  let cur := st.currentPage
  let next := lookupD st.timersByPage cur 0 + 1
  let st := { st with timersByPage := insertK st.timersByPage cur next, pageTime := next }
  if category = Category.intensive then
    let isCapped := lookupD st.cappedByPage cur false
    if isCapped && st.isRecording then
      { state := { st with isRecording := false }, store := store
        stoppedAdapter := true, persisted := none }
    else if !isCapped && st.isRecording then
      let currentRecorded := lookupD st.recordedByPage cur 0
      if currentRecorded < 600 then
        let nextRecorded := min 600 (currentRecorded + 1)
        let st := { st with recordedByPage := insertK st.recordedByPage cur nextRecorded }
        if 600 ≤ nextRecorded then
          let st := { st with isRecording := false
                              cappedByPage := insertK st.cappedByPage cur true
                              recordingStopped := true }
          let (st, store, prog) := persistCapForPage bookId userId totalPages cur nextRecorded st store
          { state := st, store := store, stoppedAdapter := true, persisted := some prog }
        else
          { state := st, store := store, stoppedAdapter := false, persisted := none }
      else
        { state := st, store := store, stoppedAdapter := false, persisted := none }
    else
      { state := st, store := store, stoppedAdapter := false, persisted := none }
  else
    { state := st, store := store, stoppedAdapter := false, persisted := none }

/-! ## Starting capture -/

/-- `startRecordingForPage` (`src/unnamed/part_003:368`): gate audio
capture against cap/exceed state.  The returned `Bool` is `true` exactly
when `audioService.startRecording` is reached (capture attempted; adapter
success assumed — a permission failure only raises an alert). -/
def startRecordingForPage (category : Category) (bookId userId : String) (totalPages page : Nat)
    (st : ReaderState) (store : Store) : ReaderState × Store × Bool :=
  match category with
  | Category.intensive =>
    let pg := persistedTimer st page
    let explicitCap := cappedD st page || ((pg.bind PageTimer.isCapped) == some true)
    let recSecs := pg.bind PageTimer.recordedTotalSeconds
    let legacyOver := decide (600 ≤ (pg.map PageTimer.totalTime).getD 0)
    let effectiveCap := explicitCap
      || (match recSecs with | some r => decide (600 ≤ r) | none => false)
      || legacyOver
    if effectiveCap then
      let st := { st with recordingStopped := true
                          cappedByPage := insertK st.cappedByPage page true }
      if (pg.bind PageTimer.isCapped) = some true then (st, store, false)
      else
        let (st, store, _) :=
          persistCapForPage bookId userId totalPages page (max (recSecs.getD 0) 600) st store
        (st, store, false)
    else
      ({ st with isRecording := true }, store, true)
  | Category.extensive =>
    let persistedTotal := ((persistedTimer st page).map PageTimer.totalTime).getD 0
    let exceeded := exceededD st page
      || decide (420 ≤ lookupD st.timersByPage page 0)
      || decide (420 ≤ persistedTotal)
    if exceeded then
      ({ st with cappedByPage := insertK st.cappedByPage page true }, store, false)
    else
      ({ st with isRecording := true }, store, true)

/-! ## Navigation -/

/-- Shared destination-page seeding of `handlePreviousPage` /
`handleNextPage` (`src/unnamed/part_003:439-454` and `472-487`). -/
def enterPage (category : Category) (bookId userId : String) (totalPages : Nat)
    (newProgress : BookProgress) (newPage : Nat)
    (st : ReaderState) (store : Store) : ReaderState × Store :=
  let pt := lookupK newProgress.pageTimers newPage
  let saved := jsOrN ((pt.map PageTimer.totalTime).getD 0) (lookupD st.timersByPage newPage 0)
  let st := { st with currentPage := newPage
                      timersByPage := insertK st.timersByPage newPage saved
                      pageTime := saved
                      overtimeTriggered := 420 ≤ saved }
  let recordedSaved := jsOrN ((pt.bind PageTimer.recordedTotalSeconds).getD 0)
    (jsOrN (lookupD st.recordedByPage newPage 0)
      (if 600 ≤ (pt.map PageTimer.totalTime).getD 0 then 600 else 0))
  let st := { st with recordedByPage := insertK st.recordedByPage newPage recordedSaved }
  let isCapped := ((pt.bind PageTimer.isCapped) == some true)
    || cappedD st newPage
    || decide (600 ≤ (pt.bind PageTimer.recordedTotalSeconds).getD 0)
    || decide (600 ≤ (pt.map PageTimer.totalTime).getD 0)
  let st := { st with cappedByPage := insertK st.cappedByPage newPage isCapped
                      recordingStopped := isCapped }
  let (st, store, _) := startRecordingForPage category bookId userId totalPages newPage st store
  (st, store)

/-- `handleNextPage` (`src/unnamed/part_003:458`): refuse while the current
page's stopwatch is below 120 s; otherwise stop capture, finalize the old
page, enter `currentPage + 1`. -/
def handleNextPage (category : Category) (bookId userId : String) (totalPages : Nat)
    (pathOpt : Option String) (st : ReaderState) (store : Store) : ReaderState × Store :=
  let currentSeconds := lookupD st.timersByPage st.currentPage 0
  if currentSeconds < 120 then (st, store)
  else if st.currentPage < totalPages then
    let st := stopCurrentRecording pathOpt st
    let (newProgress, st, store) := finalizePageTime bookId userId totalPages st.currentPage st store
    enterPage category bookId userId totalPages newProgress (st.currentPage + 1) st store
  else (st, store)

/-- `handlePreviousPage` (`src/unnamed/part_003:431`): no minimum-dwell
gate; stop capture, finalize the old page, enter `currentPage - 1`. -/
def handlePreviousPage (category : Category) (bookId userId : String) (totalPages : Nat)
    (pathOpt : Option String) (st : ReaderState) (store : Store) : ReaderState × Store :=
  if 1 < st.currentPage then
    let st := stopCurrentRecording pathOpt st
    let (newProgress, st, store) := finalizePageTime bookId userId totalPages st.currentPage st store
    enterPage category bookId userId totalPages newProgress (st.currentPage - 1) st store
  else (st, store)

/-! ## Resume (loadProgress) -/

/-- The cap re-derivation of `loadProgress` for one persisted record:
an explicit `isCapped` flag, or `recordedTotalSeconds ≥ 600`, or a legacy
`totalTime ≥ 600`. -/
def reachedCapB (t : PageTimer) : Bool :=
  (t.isCapped == some true)
    || (match t.recordedTotalSeconds with | some r => decide (600 ≤ r) | none => false)
    || decide (600 ≤ t.totalTime)

/-- One step of the `Object.keys(timersMap).forEach` seeding loop of
`loadProgress` (`src/unnamed/part_003:263-278`), building the seeded
timer/recorded/capped maps. -/
def seedStep (acc : List (Nat × Nat) × List (Nat × Nat) × List (Nat × Bool))
    (e : Nat × PageTimer) : List (Nat × Nat) × List (Nat × Nat) × List (Nat × Bool) :=
  ( insertK acc.1 e.1 e.2.totalTime
  , match e.2.recordedTotalSeconds with
    | some r => insertK acc.2.1 e.1 r
    | none => acc.2.1
  , if reachedCapB e.2 then insertK acc.2.2 e.1 true else acc.2.2 )

/-- The seeded maps derived from a persisted `pageTimers` map. -/
def seedMaps (pageTimers : List (Nat × PageTimer)) :
    List (Nat × Nat) × List (Nat × Nat) × List (Nat × Bool) :=
  pageTimers.foldl seedStep ([], [], [])

/-- `loadProgress` (`src/unnamed/part_003:251-309`), applied to the
document returned by `bookService.getBookProgress` (the external store
read): seed per-page timer/recorded/capped state, re-derive caps for
records lacking the explicit flag, seed extensive 2-page exceed state,
and restore the current page. -/
def loadProgress (category : Category) (totalPages : Nat) (doc : BookProgress)
    (st : ReaderState) : ReaderState :=
  let cp := doc.currentPage
  let seeded := seedMaps doc.pageTimers
  let saved := lookupD seeded.1 cp 0
  let st := { st with progress := some doc
                      currentPage := cp
                      timersByPage := mergeK st.timersByPage seeded.1
                      recordedByPage := mergeK st.recordedByPage seeded.2.1
                      cappedByPage := mergeK st.cappedByPage seeded.2.2
                      lifelineUsed := st.lifelineUsed || (doc.lifelineUsed == some true) }
  let st :=
    if category = Category.extensive ∧ totalPages = 2 then
      let seededExceeded := (seeded.1.filter (fun e => 420 ≤ e.2)).map
        (fun e => (e.1, true))
      { st with exceededPages := mergeK st.exceededPages seededExceeded
                cappedByPage := mergeK st.cappedByPage seededExceeded }
    else st
  { st with pageTime := saved
            overtimeTriggered := 420 ≤ saved
            recordingStopped := lookupD seeded.2.2 cp false }

/-! ## Extensive reset and overtime policy -/

/-- Modelled from the spec: `storageService.deleteAllUserBookAudio` is not
among the provided sources; per the spec the extensive reset "deletes all
uploaded audio for that (user, book)". -/
def deleteAllUserBookAudio (userId bookId : String) (grade : Nat) (store : Store) : Store :=
  let _ := grade
  let keep := fun (f : AudioFile) => !(f.userId == userId && f.bookId == bookId)
  { store with audioFiles := store.audioFiles.filter keep }

/-- Modelled from the spec: `bookService.resetBookProgress` is not among
the provided sources; per the spec the reset "wipes `pageTimers`,
`lifelineUsed`" and the user is "returned to page 1"
(`pageTimers = {}`, `lifelineUsed = false`, `currentPage = 1`). -/
def resetBookProgress (userId bookId : String) (store : Store) : Store :=
  match lookupK store.progressDocs (userId, bookId) with
  | none => store
  | some prog =>
    let cleared := { prog with pageTimers := [], lifelineUsed := some false, currentPage := 1 }
    { store with progressDocs := insertK store.progressDocs (userId, bookId) cleared }

/-- `handleExtensiveReset` (`src/unnamed/part_003:348-365`): stop the
recorder, delete all remote audio for the book, reset the persisted
progress, clear every local timer/cap/exceed map and the lifeline, and
show the time-limit modal (whose close handler exits the reader). -/
def handleExtensiveReset (userId bookId : String) (grade : Nat)
    (st : ReaderState) (store : Store) : ReaderState × Store :=
  let st := { st with isRecording := false }
  let store := deleteAllUserBookAudio userId bookId grade store
  let store := resetBookProgress userId bookId store
  ({ st with timersByPage := []
             recordedByPage := []
             exceededPages := []
             cappedByPage := []
             lifelineUsed := false
             timeLimitVisible := true }, store)

/-- Outcome of the extensive overtime effect: which consequence fired. -/
inductive OvertimeOutcome
  | noAction
  | resetSession (title message : String)
  | lifelineConsumed
  | capOnly
  deriving Repr, DecidableEq

/-- The extensive overtime effect (`src/unnamed/part_003:196-249`),
re-run whenever `timersByPage` changes: below 420 s, or on an
already-exceeded page, or in a book that is neither 1 nor 2 pages, it
does nothing; a 1-page book resets; in a 2-page book the first exceed
consumes the lifeline (or merely caps if the lifeline is somehow spent)
and the second exceed resets.  `pathOpt` is the path returned by the
recorder on stop. -/
def extensiveOvertimeEffect (category : Category) (bookId userId : String)
    (totalPages : Nat) (pathOpt : Option String)
    (st : ReaderState) (store : Store) : ReaderState × Store × OvertimeOutcome :=
  if category ≠ Category.extensive then (st, store, OvertimeOutcome.noAction)
  else
    let current := lookupD st.timersByPage st.currentPage 0
    if current < 420 then (st, store, OvertimeOutcome.noAction)
    else if exceededD st st.currentPage then (st, store, OvertimeOutcome.noAction)
    else if totalPages = 1 then
      let st := { st with exceededPages := insertK st.exceededPages st.currentPage true }
      let st := stopCurrentRecording pathOpt st
      (st, store, OvertimeOutcome.resetSession "Time limit 7m reached"
        "Your session is restarted from the first page. Audio for this book was cleared.")
    else if totalPages = 2 then
      let priorExceeds := (if exceededD st 1 then 1 else 0) + (if exceededD st 2 then 1 else 0)
      let st := { st with exceededPages := insertK st.exceededPages st.currentPage true }
      if 1 ≤ priorExceeds then
        let st := stopCurrentRecording pathOpt st
        (st, store, OvertimeOutcome.resetSession "7m reached for both pages"
          "Both pages exceeded 7:00. Restarting from page 1; audio has been cleared.")
      else if !st.lifelineUsed then
        let st := { st with lifelineUsed := true
                            cappedByPage := insertK st.cappedByPage st.currentPage true }
        let st := stopCurrentRecording pathOpt st
        let (updated, st, store) :=
          finalizePageTime bookId userId totalPages st.currentPage st store
        let updated := { updated with lifelineUsed := some true }
        let store := updateBookProgress store updated
        ({ st with progress := some updated }, store, OvertimeOutcome.lifelineConsumed)
      else
        let st := { st with cappedByPage := insertK st.cappedByPage st.currentPage true }
        let st := stopCurrentRecording pathOpt st
        (st, store, OvertimeOutcome.capOnly)
    else (st, store, OvertimeOutcome.noAction)

/-- The overtime effect together with the `handleExtensiveReset` it
invokes on a reset outcome. -/
def runExtensiveOvertime (category : Category) (bookId userId : String) (grade : Nat)
    (totalPages : Nat) (pathOpt : Option String)
    (st : ReaderState) (store : Store) : ReaderState × Store × OvertimeOutcome :=
  match extensiveOvertimeEffect category bookId userId totalPages pathOpt st store with
  | (st, store, OvertimeOutcome.resetSession t m) =>
    let (st, store) := handleExtensiveReset userId bookId grade st store
    (st, store, OvertimeOutcome.resetSession t m)
  | r => r

/-! ## Upload batch (submit / complete) -/

/-- Ascending insertion into a sorted list of naturals. -/
def insertSorted (n : Nat) : List Nat → List Nat
  | [] => [n]
  | m :: rest => if n ≤ m then n :: m :: rest else m :: insertSorted n rest

/-- `Object.keys(localMap).map(parseInt).sort((a,b) => a-b)`. -/
def sortNat (l : List Nat) : List Nat := l.foldr insertSorted []

/-- The per-segment batch in iteration order: pages ascending, segments
oldest-first within a page (`localMap[pageNum] || []` in list order). -/
def flattenSegments (localMap : List (Nat × List String)) (pages : List Nat) :
    List (Nat × String) :=
  pages.flatMap (fun p => (lookupD localMap p []).map (fun s => (p, s)))

/-- The five `onProgress` call sites inside `AudioService.uploadSegment`
(`src/src/services/audioService.ts:216-271`) on the success path; the
modelled failure mode is the up-front network check, before any callback. -/
def uploadProgressSteps : List Nat := [10, 20, 40, 90, 100]

/-- `Math.min(99, base + Math.floor((p / 100) * (100 / totalSegments)))`.
The JS float expression is modelled as the exact rational
`base + p / totalSegments`; at every call site (`p ∈ uploadProgressSteps`)
and batch size arising in the verified claims (1, 2 or 3 segments) the
IEEE evaluation and the exact floor agree. -/
def weightedProgress (base p totalSegments : Nat) : Nat :=
  min 99 (base + p / totalSegments)

/-- The nested upload loop of `handleMandatoryUpload`
(`src/unnamed/part_003:528-551`), flattened over the page-ordered segment
batch.  `uploadOk` is the external upload adapter's verdict per local
path.  Returns the `uploadSegment` calls actually made, the sequence of
values passed to `setUploadProgress`, the store (successful segments
append a fresh remote audio file), the success flag and the number of
segments uploaded. -/
def uploadLoop (uploadOk : String → Bool) (userId bookId : String) (grade : Nat)
    (totalSegments : Nat) :
    List (Nat × String) → Nat → Store → List Nat →
      List (Nat × String) × List Nat × Store × Bool × Nat
  | [], uploaded, store, trace => ([], trace, store, true, uploaded)
  | (page, path) :: rest, uploaded, store, trace =>
    let base := uploaded * 100 / totalSegments
    if uploadOk path then
      let trace := trace ++ uploadProgressSteps.map (fun p => weightedProgress base p totalSegments)
      let file : AudioFile :=
        { userId := userId, bookId := bookId, grade := grade, page := page
          seq := store.audioFiles.length }
      let store := { store with audioFiles := store.audioFiles ++ [file] }
      let (calls, trace, store, ok, n) :=
        uploadLoop uploadOk userId bookId grade totalSegments rest (uploaded + 1) store trace
      ((page, path) :: calls, trace, store, ok, n)
    else
      ([(page, path)], trace, store, false, uploaded)

/-- Result of `handleMandatoryUpload`. -/
structure UploadBatchResult where
  state : ReaderState
  store : Store
  calls : List (Nat × String)
  trace : List Nat
  success : Bool
  noAudio : Bool
  deriving Repr, DecidableEq

/-- `Object.keys(localMap).map(parseInt).sort((a,b) => a-b)` of the batch. -/
def batchPages (localMap : List (Nat × List String)) : List Nat := sortNat (keysK localMap)

/-- `totalSegments` of the batch (with the `=== 0 → 1` fallback). -/
def batchTotal (localMap : List (Nat × List String)) : Nat :=
  let totalSegments0 :=
    (batchPages localMap).foldl (fun acc p => acc + (lookupD localMap p []).length) 0
  if totalSegments0 = 0 then 1 else totalSegments0

/-- The batch in iteration order. -/
def batchSegs (localMap : List (Nat × List String)) : List (Nat × String) :=
  flattenSegments localMap (batchPages localMap)

/-- `handleMandatoryUpload` (`src/unnamed/part_003:506-561`): stop the
current recording, drain every queued segment (pages ascending, oldest
first) through `uploadSegment`, report per-segment-weighted progress, and
clear the queue only after the whole batch succeeds.  A per-segment
failure throws into the catch block: the queue is left untouched and no
further segment is attempted.  (`localMap` equals the post-stop
`recordingsByPage`: under sequential state threading the manual
`currentFilePath` insertion is the identity thanks to its `includes`
dedup check; segment paths are assumed distinct, as produced by the
recorder.) -/
def handleMandatoryUpload (uploadOk : String → Bool) (userId bookId : String) (grade : Nat)
    (pathOpt : Option String) (st : ReaderState) (store : Store) : UploadBatchResult :=
  let st := { st with isUploading := true, uploadProgress := 0 }
  let trace0 : List Nat := [0]
  let st := stopCurrentRecording pathOpt st
  let localMap := st.recordingsByPage
  if (batchPages localMap).length = 0 then
    { state := { st with isUploading := false }, store := store
      calls := [], trace := trace0, success := false, noAudio := true }
  else
    let r := uploadLoop uploadOk userId bookId grade (batchTotal localMap)
      (batchSegs localMap) 0 store trace0
    if r.2.2.2.1 then
      { state := { st with isUploading := false, uploadProgress := 100, recordingsByPage := [] }
        store := r.2.2.1, calls := r.1, trace := r.2.1 ++ [100], success := true
        noAudio := false }
    else
      { state := { st with isUploading := false
                           uploadProgress := ((r.2.1.getLast?).getD 0) }
        store := r.2.2.1, calls := r.1, trace := r.2.1, success := false, noAudio := false }

/-- `bookService.submitBook` (`src/unnamed/part_008`): load the progress
document and mark it submitted (`completedAt` date omitted); when the
document is missing the thrown error leaves the store untouched. -/
def submitBook (userId bookId : String) (store : Store) : Store :=
  match lookupK store.progressDocs (userId, bookId) with
  | none => store
  | some prog => updateBookProgress store { prog with isSubmitted := true }

/-- `handleSubmitInProgress` (`src/unnamed/part_003:497-504`): finalize
the current page, run the mandatory upload, then call
`bookService.submitBook` — unconditionally, because
`handleMandatoryUpload` swallows its own upload failure in its catch
block and resolves normally. -/
def handleSubmitInProgress (uploadOk : String → Bool) (userId bookId : String)
    (grade totalPages : Nat) (pathOpt : Option String)
    (st : ReaderState) (store : Store) : UploadBatchResult × Store :=
  let (_, st, store) := finalizePageTime bookId userId totalPages st.currentPage st store
  let r := handleMandatoryUpload uploadOk userId bookId grade pathOpt st store
  let store := submitBook userId bookId r.store
  (r, store)

/-! ## Quiz completion and sticker award -/

/-- A reward sticker (`src/src/types`); `earnedAt` models the award date
as an abstract tick. -/
structure Sticker where
  id : String
  name : String
  imageUrl : String
  description : String
  earnedAt : Option Nat
  deriving Repr, DecidableEq

/-- The slice of a user document relevant to awards: `stickers` is
optional (`Array.isArray` guard in the source). -/
structure UserRec where
  id : String
  stickers : Option (List Sticker)
  deriving Repr, DecidableEq

/-- The `users` collection. -/
structure UserStore where
  users : List (String × UserRec)
  deriving Repr, DecidableEq

/-- `BookService.awardSticker` (`src/unnamed/part_008:183-197`): no-op when
the user document is missing or the sticker id is already present;
otherwise append the sticker stamped with the award time (`now` models
`new Date()`), merging only the `stickers` field. -/
def awardSticker (now : Nat) (store : UserStore) (userId : String) (sticker : Sticker) :
    UserStore :=
  match lookupK store.users userId with
  | none => store
  | some u =>
    let stickers := u.stickers.getD []
    if stickers.any (fun s => s.id == sticker.id) then store
    else
      let updated := stickers ++ [{ sticker with earnedAt := some now }]
      { store with users := insertK store.users userId { u with stickers := some updated } }

/-- The book-specific sticker built in `completeQuiz`
(`src/src/screens/QuizScreen.tsx:122-128`). -/
def quizSticker (bookId title : String) (grade : Nat) : Sticker :=
  { id := "sticker_" ++ bookId
    name := title ++ " Award"
    imageUrl := "books/grade_" ++ toString grade ++ "/" ++ bookId ++ "/sticker.png"
    description := "Awarded for completing the quiz with all correct answers"
    earnedAt := none }

/-- The award step of `completeQuiz` (`src/src/screens/QuizScreen.tsx:99-144`):
`score` is the number of correct answers, `passingScore = Math.ceil(totalQuestions)
= totalQuestions`, and a passing result awards the book's sticker
(`saveQuizResult` writes a separate result document, not modelled). -/
def completeQuizAward (now : Nat) (userId bookId title : String) (grade : Nat)
    (answers : List Bool) (totalQuestions : Nat) (store : UserStore) : UserStore :=
  let score := answers.count true
  let passingScore := totalQuestions
  let passed := passingScore ≤ score
  if passed then awardSticker now store userId (quizSticker bookId title grade) else store

/-! ## Concrete fixtures for witnesses and counterexamples -/

/-- Empty remote store. -/
def storeEmpty : Store := { progressDocs := [], audioFiles := [] }

/-- Gate fixture: 119 seconds of dwell on the current page. -/
def gateSt : ReaderState := { initialReaderState with timersByPage := [(1, 119)] }

/-- Reset fixture: the persisted page-1 timer record. -/
def resetPt : PageTimer :=
  { pageNumber := 1, totalTime := 430, exceedanceCount := 0
    isCompleted := true, recordedTotalSeconds := none, isCapped := none }

/-- Reset fixture: a persisted two-page extensive session with audio. -/
def resetDoc : BookProgress :=
  { bookId := "b3", userId := "u3", currentPage := 2, totalPages := 2
    isCompleted := false, isSubmitted := false
    pageTimers := [(1, resetPt)]
    lifelineUsed := some true, penaltyCount := 0 }

/-- Reset fixture: remote store holding the document and two audio files. -/
def resetStore : Store :=
  { progressDocs := [(("u3", "b3"), resetDoc)]
    audioFiles := [{ userId := "u3", bookId := "b3", grade := 5, page := 1, seq := 0 },
      { userId := "u3", bookId := "b3", grade := 5, page := 2, seq := 1 }] }

/-- Reset fixture: local session state mid-book. -/
def resetSt : ReaderState :=
  { initialReaderState with
      currentPage := 2
      timersByPage := [(1, 430), (2, 420)]
      exceededPages := [(1, true)]
      lifelineUsed := true }

/-! ## C9: idempotent sticker award -/

/-- The user record produced by a successful first award. -/
def awardedUser (u : UserRec) (sticker : Sticker) (now : Nat) : UserRec :=
  { u with stickers := some ((u.stickers.getD []) ++ [{ sticker with earnedAt := some now }]) }

/-- Quiz fixture: a user owning no stickers yet. -/
def quizStore : UserStore := { users := [("u4", { id := "u4", stickers := none })] }

/-- Cap fixture: an intensive page one second away from the 600 s cap. -/
def capSt : ReaderState :=
  { initialReaderState with
      timersByPage := [(1, 650)]
      recordedByPage := [(1, 599)]
      isRecording := true }

/-- Overtime fixture: page 1 of a fresh extensive session just crossed
420 s; nothing exceeded, lifeline unused. -/
def overtimeSt : ReaderState := { initialReaderState with timersByPage := [(1, 420)] }

/-! ## C10: extensive books with three or more pages -/

/-- Fixture: page 2 of a 3-page extensive book with 420 s of dwell. -/
def threePageSt : ReaderState :=
  { initialReaderState with currentPage := 2, timersByPage := [(2, 420)] }

/-! ## C6: submit-in-progress upload batch -/

/-- Submit fixture: two queued segments for page 1 and one for page 2. -/
def submitSt : ReaderState :=
  { initialReaderState with
      currentPage := 2
      timersByPage := [(1, 200), (2, 150)]
      recordingsByPage := [(1, ["p1s1", "p1s2"]), (2, ["p2s1"])] }

/-- Submit fixture: the persisted progress document. -/
def submitDoc : BookProgress :=
  { bookId := "b9", userId := "u9", currentPage := 2, totalPages := 7
    isCompleted := false, isSubmitted := false, pageTimers := []
    lifelineUsed := none, penaltyCount := 0 }

/-- Submit fixture: store holding the document. -/
def submitStore : Store := { progressDocs := [(("u9", "b9"), submitDoc)], audioFiles := [] }

/-- Upload adapter verdicts: every segment succeeds. -/
def okAll : String → Bool := fun _ => true

/-- Upload adapter verdicts: the second page-1 segment fails. -/
def okFailSecond : String → Bool := fun s => s != "p1s2"

/-- Retry fixture: two segments, the second always fails to upload. -/
def retrySt : ReaderState :=
  { initialReaderState with recordingsByPage := [(1, ["a1", "a2"])] }

/-- Upload adapter verdicts for the retry fixture: only `a1` succeeds. -/
def retryOk : String → Bool := fun s => s == "a1"

/-- Retry witness fixture: three segments, the middle one fails. -/
def retryWSt : ReaderState :=
  { initialReaderState with recordingsByPage := [(1, ["w1", "w2"]), (2, ["w3"])] }

/-- Upload adapter verdicts for the retry witness: `w2` fails. -/
def retryWOk : String → Bool := fun s => s != "w2"

/-- A conditional-insertion fold over persisted page records, the common
shape of the three `loadProgress` seed maps. -/
def condInsertFold {α : Type} (g : PageTimer → Option α) (l : List (Nat × PageTimer))
    (acc : List (Nat × α)) : List (Nat × α) :=
  l.foldl (fun a e => match g e.2 with | some v => insertK a e.1 v | none => a) acc

/-- Resume fixture: the persisted page-3 record with 600 recorded seconds
and no explicit cap flag. -/
def resumePt : PageTimer :=
  { pageNumber := 3, totalTime := 700, exceedanceCount := 0
    isCompleted := true, recordedTotalSeconds := some 600, isCapped := none }

/-- Resume fixture: a persisted document holding `resumePt` at page 3. -/
def resumeDoc : BookProgress :=
  { bookId := "b12", userId := "u12", currentPage := 1, totalPages := 7
    isCompleted := false, isSubmitted := false
    pageTimers := [(3, resumePt)]
    lifelineUsed := none, penaltyCount := 0 }

/-! ## C8: timer monotonicity and the recorded-le-total invariant -/

/-- The operations over which C8 quantifies: the 1 Hz tick and the two
navigation handlers (each navigation carries the path returned by the
recorder on stop). -/
inductive NavOp
  | tickOp
  | nextOp (pathOpt : Option String)
  | prevOp (pathOpt : Option String)

/-- Apply one operation to the session. -/
def applyNav (category : Category) (bookId userId : String) (totalPages : Nat)
    (op : NavOp) (st : ReaderState) (store : Store) : ReaderState × Store :=
  match op with
  | NavOp.tickOp =>
    ((tick category bookId userId totalPages st store).state,
      (tick category bookId userId totalPages st store).store)
  | NavOp.nextOp pathOpt => handleNextPage category bookId userId totalPages pathOpt st store
  | NavOp.prevOp pathOpt => handlePreviousPage category bookId userId totalPages pathOpt st store

/-- The inductive session invariant of the no-failure model: persisted
totals never exceed the live stopwatch, persisted totals of non-current
pages are checkpoints (absent or exact), recorded seconds never exceed
dwell seconds (in memory and persisted), and a capped page has at least
600 s on the stopwatch (intensive) or behind its persisted cap flag. -/
structure SessionInv (category : Category) (st : ReaderState) : Prop where
  persisted_le : ∀ q, pTotal st q ≤ timersD st q
  persisted_eq : ∀ q, q ≠ st.currentPage → pTotal st q = 0 ∨ pTotal st q = timersD st q
  rec_le : ∀ q, recD st q ≤ timersD st q
  prec_le : ∀ q, pRec st q ≤ pTotal st q
  capped_ge : ∀ q, category = Category.intensive → cappedD st q = true → 600 ≤ timersD st q
  capflag_ge : ∀ q, pCapFlag st q = some true → 600 ≤ pTotal st q

/-- The component state after the capping tick, before persistence. -/
def tickBumpCap (st : ReaderState) (nr : Nat) : ReaderState :=
  { st with
      timersByPage := insertK st.timersByPage st.currentPage
        (lookupD st.timersByPage st.currentPage 0 + 1)
      pageTime := lookupD st.timersByPage st.currentPage 0 + 1
      recordedByPage := insertK st.recordedByPage st.currentPage nr
      isRecording := false
      cappedByPage := insertK st.cappedByPage st.currentPage true
      recordingStopped := true }

/-- The component state mid-`enterPage`, before `startRecordingForPage`. -/
def enterCore (st2 : ReaderState) (newPage saved recSaved : Nat) (capB : Bool) :
    ReaderState :=
  { st2 with
      currentPage := newPage
      timersByPage := insertK st2.timersByPage newPage saved
      pageTime := saved
      overtimeTriggered := 420 ≤ saved
      recordedByPage := insertK st2.recordedByPage newPage recSaved
      cappedByPage := insertK st2.cappedByPage newPage capB
      recordingStopped := capB }

/-- Run a sequence of session operations from a given state. -/
def runNav (category : Category) (bookId userId : String) (totalPages : Nat)
    (ops : List NavOp) (st : ReaderState) (store : Store) : ReaderState × Store :=
  ops.foldl (fun acc op => applyNav category bookId userId totalPages op acc.1 acc.2) (st, store)

/-! ## Theorems -/


theorem lookupK_insertK_self {κ α : Type} [DecidableEq κ] (m : List (κ × α)) (k : κ) (v : α) :
    lookupK (insertK m k v) k = some v := by
  induction m with
  | nil => simp [insertK, lookupK]
  | cons e rest ih =>
    by_cases h : e.1 = k
    · simp [insertK, h, lookupK]
    · simp [insertK, h, lookupK, ih]

theorem lookupK_insertK_ne {κ α : Type} [DecidableEq κ] (m : List (κ × α)) (k k' : κ) (v : α)
    (h : k ≠ k') : lookupK (insertK m k v) k' = lookupK m k' := by
  induction m with
  | nil => simp [insertK, lookupK, h]
  | cons e rest ih =>
    by_cases he : e.1 = k
    · simp [insertK, he, lookupK, h]
    · simp only [insertK, if_neg he, lookupK]
      by_cases he' : e.1 = k'
      · simp [he']
      · simp [he', ih]

theorem lookupD_insertK_self {κ α : Type} [DecidableEq κ] (m : List (κ × α)) (k : κ) (v d : α) :
    lookupD (insertK m k v) k d = v := by
  simp [lookupD, lookupK_insertK_self]

theorem lookupD_insertK_ne {κ α : Type} [DecidableEq κ] (m : List (κ × α)) (k k' : κ) (v d : α)
    (h : k ≠ k') : lookupD (insertK m k v) k' d = lookupD m k' d := by
  simp [lookupD, lookupK_insertK_ne _ _ _ _ h]

theorem lookupD_insertK {κ α : Type} [DecidableEq κ] (m : List (κ × α)) (k k' : κ) (v d : α) :
    lookupD (insertK m k v) k' d = if k = k' then v else lookupD m k' d := by
  by_cases h : k = k'
  · subst h; simp [lookupD_insertK_self]
  · simp [lookupD_insertK_ne _ _ _ _ _ h, h]

theorem lookupK_insertK {κ α : Type} [DecidableEq κ] (m : List (κ × α)) (k k' : κ) (v : α) :
    lookupK (insertK m k v) k' = if k = k' then some v else lookupK m k' := by
  by_cases h : k = k'
  · subst h; simp [lookupK_insertK_self]
  · simp [lookupK_insertK_ne _ _ _ _ h, h]

theorem lookupK_eq_none_of_not_mem {κ α : Type} [DecidableEq κ] (m : List (κ × α)) (k : κ)
    (h : k ∉ keysK m) : lookupK m k = none := by
  induction m with
  | nil => rfl
  | cons e rest ih =>
    simp only [keysK, List.map_cons, List.mem_cons] at h
    push_neg at h
    have hne : e.1 ≠ k := fun hk => h.1 hk.symm
    simp only [lookupK, if_neg hne, ih (by simpa [keysK] using h.2)]

theorem jsOrN_eq_or (a b : Nat) : jsOrN a b = a ∨ jsOrN a b = b := by
  unfold jsOrN; by_cases h : a = 0 <;> simp [h]

theorem persistedTimer_eq_basePT (st : ReaderState) (p : Nat) :
    persistedTimer st p = lookupK (basePT st) p := by
  unfold persistedTimer basePT
  cases st.progress <;> rfl

theorem lookupK_updateBookProgress (store : Store) (p : BookProgress) :
    lookupK (updateBookProgress store p).progressDocs (p.userId, p.bookId) = some p := by
  simp only [updateBookProgress]
  exact lookupK_insertK_self _ _ _

/-! ## C5: the 120-second Next gate -/

/-- C5: For every book category, `Next` navigation is refused whenever the
current page's accumulated dwell time is below 120 seconds, and the
refused `Next` leaves the component state and the store entirely
unchanged. -/
theorem next_refused_below_120s (category : Category) (bookId userId : String)
    (totalPages : Nat) (pathOpt : Option String) (st : ReaderState) (store : Store)
    (h : lookupD st.timersByPage st.currentPage 0 < 120) :
    handleNextPage category bookId userId totalPages pathOpt st store = (st, store) := by
  unfold handleNextPage
  simp [h]

/-- Witness for `next_refused_below_120s` at a concrete state, in the
extensive category. -/
theorem next_refused_below_120s_witness :
    lookupD gateSt.timersByPage gateSt.currentPage 0 < 120 ∧
      handleNextPage Category.extensive "b1" "u1" 7 none gateSt storeEmpty = (gateSt, storeEmpty) :=
  ⟨by decide, next_refused_below_120s Category.extensive "b1" "u1" 7 none gateSt storeEmpty
    (by decide)⟩

/-! ## C3: the extensive full reset -/

/-- C3: A full extensive-session reset leaves `pageTimers` (and the other
per-page maps) empty and `lifelineUsed` false, removes every remote audio
file of the (user, book) pair, and persists a progress document putting
the user back on page 1 with wiped timers. -/
theorem extensive_reset_clears_session (userId bookId : String) (grade : Nat)
    (st : ReaderState) (store : Store) (prog : BookProgress)
    (hdoc : lookupK store.progressDocs (userId, bookId) = some prog) :
    (handleExtensiveReset userId bookId grade st store).1.timersByPage = [] ∧
    (handleExtensiveReset userId bookId grade st store).1.lifelineUsed = false ∧
    (handleExtensiveReset userId bookId grade st store).1.recordedByPage = [] ∧
    (handleExtensiveReset userId bookId grade st store).1.cappedByPage = [] ∧
    (handleExtensiveReset userId bookId grade st store).1.exceededPages = [] ∧
    (∀ f ∈ (handleExtensiveReset userId bookId grade st store).2.audioFiles,
      ¬(f.userId = userId ∧ f.bookId = bookId)) ∧
    (∃ d, lookupK (handleExtensiveReset userId bookId grade st store).2.progressDocs
        (userId, bookId) = some d ∧
      d.currentPage = 1 ∧ d.pageTimers = [] ∧ d.lifelineUsed = some false) := by
  have haudio : (resetBookProgress userId bookId
      (deleteAllUserBookAudio userId bookId grade store)).audioFiles =
      (deleteAllUserBookAudio userId bookId grade store).audioFiles := by
    unfold resetBookProgress
    cases lookupK (deleteAllUserBookAudio userId bookId grade store).progressDocs
        (userId, bookId) <;> rfl
  refine ⟨rfl, rfl, rfl, rfl, rfl, ?_, ?_⟩
  · intro f hf hid
    have hmem : f ∈ (deleteAllUserBookAudio userId bookId grade store).audioFiles := by
      have : (handleExtensiveReset userId bookId grade st store).2.audioFiles =
          (deleteAllUserBookAudio userId bookId grade store).audioFiles := haudio
      rw [this] at hf
      exact hf
    simp only [deleteAllUserBookAudio] at hmem
    have hkeep := (List.mem_filter.mp hmem).2
    simp [hid.1, hid.2] at hkeep
  · have hlk : lookupK (deleteAllUserBookAudio userId bookId grade store).progressDocs
        (userId, bookId) = some prog := hdoc
    have hres : lookupK (resetBookProgress userId bookId
        (deleteAllUserBookAudio userId bookId grade store)).progressDocs (userId, bookId) =
        some { prog with pageTimers := [], lifelineUsed := some false, currentPage := 1 } := by
      unfold resetBookProgress
      split
      case _ heq => rw [hlk] at heq; exact absurd heq (by simp)
      case _ p heq =>
        rw [hlk] at heq
        injection heq with h
        subst h
        exact lookupK_insertK_self _ _ _
    exact ⟨{ prog with pageTimers := [], lifelineUsed := some false, currentPage := 1 },
      hres, rfl, rfl, rfl⟩

/-- Witness for `extensive_reset_clears_session` at a concrete session. -/
theorem extensive_reset_clears_session_witness :
    lookupK resetStore.progressDocs ("u3", "b3") = some resetDoc ∧
      ((handleExtensiveReset "u3" "b3" 5 resetSt resetStore).1.timersByPage = [] ∧
        (handleExtensiveReset "u3" "b3" 5 resetSt resetStore).1.lifelineUsed = false ∧
        (handleExtensiveReset "u3" "b3" 5 resetSt resetStore).1.recordedByPage = [] ∧
        (handleExtensiveReset "u3" "b3" 5 resetSt resetStore).1.cappedByPage = [] ∧
        (handleExtensiveReset "u3" "b3" 5 resetSt resetStore).1.exceededPages = [] ∧
        (∀ f ∈ (handleExtensiveReset "u3" "b3" 5 resetSt resetStore).2.audioFiles,
          ¬(f.userId = "u3" ∧ f.bookId = "b3")) ∧
        (∃ d, lookupK (handleExtensiveReset "u3" "b3" 5 resetSt resetStore).2.progressDocs
            ("u3", "b3") = some d ∧
          d.currentPage = 1 ∧ d.pageTimers = [] ∧ d.lifelineUsed = some false)) :=
  ⟨by decide, extensive_reset_clears_session "u3" "b3" 5 resetSt resetStore resetDoc (by decide)⟩

theorem awardSticker_double (now1 now2 : Nat) (store : UserStore) (userId : String)
    (sticker : Sticker) :
    awardSticker now2 (awardSticker now1 store userId sticker) userId sticker =
      awardSticker now1 store userId sticker := by
  cases hu : lookupK store.users userId with
  | none =>
    have h1 : awardSticker now1 store userId sticker = store := by
      unfold awardSticker; rw [hu]
    rw [h1]
    unfold awardSticker; rw [hu]
  | some u =>
    by_cases hany : (u.stickers.getD []).any (fun s => s.id == sticker.id) = true
    · have h1 : awardSticker now1 store userId sticker = store := by
        unfold awardSticker; rw [hu]; simp [hany]
      rw [h1]
      unfold awardSticker; rw [hu]; simp [hany]
    · have h1 : awardSticker now1 store userId sticker =
          { store with users := insertK store.users userId (awardedUser u sticker now1) } := by
        unfold awardSticker; rw [hu]
        simp only [Bool.not_eq_true] at hany
        simp [hany, awardedUser]
      rw [h1]
      unfold awardSticker
      have hlk2 : lookupK (insertK store.users userId (awardedUser u sticker now1)) userId =
          some (awardedUser u sticker now1) :=
        lookupK_insertK_self _ _ _
      rw [hlk2]
      simp [awardedUser]

theorem awardSticker_fresh_count (now : Nat) (store : UserStore) (userId : String)
    (sticker : Sticker) (u : UserRec)
    (hu : lookupK store.users userId = some u)
    (hfresh : (u.stickers.getD []).countP (fun s => s.id == sticker.id) = 0) :
    ∃ u', lookupK (awardSticker now store userId sticker).users userId = some u' ∧
      (u'.stickers.getD []).countP (fun s => s.id == sticker.id) = 1 := by
  have hany : (u.stickers.getD []).any (fun s => s.id == sticker.id) = false := by
    rw [List.any_eq_false]
    intro x hx
    have := List.countP_eq_zero.mp hfresh x hx
    simpa using this
  unfold awardSticker
  rw [hu]
  simp only [hany, Bool.false_eq_true, if_false]
  refine ⟨_, lookupK_insertK_self _ _ _, ?_⟩
  simp [List.countP_append, hfresh]

/-- C9: A perfect-score quiz completion awards the book-specific sticker
exactly once: a second run of the completion/award handler for the same
user and book is a no-op, and a user who did not yet own the sticker ends
with exactly one copy of it. -/
theorem perfect_quiz_award_idempotent (now1 now2 : Nat) (userId bookId title : String)
    (grade totalQuestions : Nat) (answers : List Bool) (store : UserStore)
    (hperfect : totalQuestions ≤ answers.count true) :
    completeQuizAward now2 userId bookId title grade answers totalQuestions
        (completeQuizAward now1 userId bookId title grade answers totalQuestions store) =
      completeQuizAward now1 userId bookId title grade answers totalQuestions store ∧
    (∀ u, lookupK store.users userId = some u →
      (u.stickers.getD []).countP (fun s => s.id == "sticker_" ++ bookId) = 0 →
      ∃ u', lookupK (completeQuizAward now1 userId bookId title grade answers totalQuestions
          store).users userId = some u' ∧
        (u'.stickers.getD []).countP (fun s => s.id == "sticker_" ++ bookId) = 1) := by
  have hrw : ∀ (now : Nat) (s : UserStore),
      completeQuizAward now userId bookId title grade answers totalQuestions s =
        awardSticker now s userId (quizSticker bookId title grade) := by
    intro now s
    unfold completeQuizAward
    simp [hperfect]
  constructor
  · simp only [hrw]
    exact awardSticker_double now1 now2 store userId (quizSticker bookId title grade)
  · intro u hu hcount
    rw [hrw]
    have hid : (quizSticker bookId title grade).id = "sticker_" ++ bookId := rfl
    rw [← hid] at hcount
    rcases awardSticker_fresh_count now1 store userId (quizSticker bookId title grade) u hu
      hcount with ⟨u', hu', hc⟩
    exact ⟨u', hu', by rw [← hid]; exact hc⟩

/-- Witness for `perfect_quiz_award_idempotent`: a 3/3 quiz run. -/
theorem perfect_quiz_award_idempotent_witness :
    3 ≤ [true, true, true].count true ∧
      (completeQuizAward 9 "u4" "b4" "T" 5 [true, true, true] 3
          (completeQuizAward 7 "u4" "b4" "T" 5 [true, true, true] 3 quizStore) =
        completeQuizAward 7 "u4" "b4" "T" 5 [true, true, true] 3 quizStore ∧
      (∀ u, lookupK quizStore.users "u4" = some u →
        (u.stickers.getD []).countP (fun s => s.id == "sticker_" ++ "b4") = 0 →
        ∃ u', lookupK (completeQuizAward 7 "u4" "b4" "T" 5 [true, true, true] 3
            quizStore).users "u4" = some u' ∧
          (u'.stickers.getD []).countP (fun s => s.id == "sticker_" ++ "b4") = 1)) :=
  ⟨by decide, perfect_quiz_award_idempotent 7 9 "u4" "b4" "T" 5 3 [true, true, true]
    quizStore (by decide)⟩

/-! ## C2: the intensive 600-second recording cap -/

/-- C2: On an intensive page with active recording and no cap,
`recordedTotalSeconds` advances by exactly 1 per tick; while the new value
is still below 600 nothing is stopped or persisted, and at the very tick
it reaches 600 the recording adapter is stopped, the page is marked
capped, and a progress document carrying
`recordedTotalSeconds = 600, isCapped = true` is persisted within the same
tick (not deferred to the next navigation). -/
theorem intensive_recording_cap_tick (bookId userId : String) (totalPages : Nat)
    (st : ReaderState) (store : Store)
    (hrec : st.isRecording = true)
    (hcap : cappedD st st.currentPage = false)
    (hlt : recD st st.currentPage < 600) :
    recD (tick Category.intensive bookId userId totalPages st store).state st.currentPage =
      recD st st.currentPage + 1 ∧
    (recD st st.currentPage + 1 < 600 →
      (tick Category.intensive bookId userId totalPages st store).stoppedAdapter = false ∧
      (tick Category.intensive bookId userId totalPages st store).persisted = none ∧
      cappedD (tick Category.intensive bookId userId totalPages st store).state
        st.currentPage = false ∧
      (tick Category.intensive bookId userId totalPages st store).state.isRecording = true) ∧
    (recD st st.currentPage + 1 = 600 →
      (tick Category.intensive bookId userId totalPages st store).stoppedAdapter = true ∧
      (tick Category.intensive bookId userId totalPages st store).state.isRecording = false ∧
      cappedD (tick Category.intensive bookId userId totalPages st store).state
        st.currentPage = true ∧
      ∃ prog, (tick Category.intensive bookId userId totalPages st store).persisted = some prog ∧
        ∃ t, lookupK prog.pageTimers st.currentPage = some t ∧
          t.recordedTotalSeconds = some 600 ∧ t.isCapped = some true ∧
          t.totalTime = timersD st st.currentPage + 1) := by
  unfold cappedD at hcap
  unfold recD at hlt ⊢
  unfold timersD
  have hmin : 600 ⊓ (lookupD st.recordedByPage st.currentPage 0 + 1)
      = lookupD st.recordedByPage st.currentPage 0 + 1 := Nat.min_eq_right (by omega)
  unfold tick
  simp only [if_true, hcap, hrec, Bool.false_and, Bool.not_false, Bool.true_and,
    Bool.false_eq_true, if_false, if_pos hlt, hmin]
  refine ⟨?_, ?_, ?_⟩
  · by_cases h600 : 600 ≤ lookupD st.recordedByPage st.currentPage 0 + 1
    · simp only [if_pos h600, persistCapForPage]
      simp [lookupD_insertK_self]
    · simp only [if_neg h600]
      simp [lookupD_insertK_self]
  · intro hsmall
    have h600 : ¬ 600 ≤ lookupD st.recordedByPage st.currentPage 0 + 1 := by omega
    simp only [if_neg h600]
    exact ⟨trivial, trivial, hcap, trivial⟩
  · intro heq
    have h600 : 600 ≤ lookupD st.recordedByPage st.currentPage 0 + 1 := by omega
    simp only [if_pos h600, persistCapForPage]
    refine ⟨trivial, trivial, ?_, ?_⟩
    · simp [cappedD, lookupD_insertK_self]
    · refine ⟨_, rfl, _, lookupK_insertK_self _ _ _, ?_, rfl, ?_⟩
      · simp [heq]
      · simp [lookupK_insertK_self]

/-- Witness for `intensive_recording_cap_tick`: the 600th recorded second
stops and persists the cap at once. -/
theorem intensive_recording_cap_tick_witness :
    (capSt.isRecording = true ∧ cappedD capSt capSt.currentPage = false ∧
      recD capSt capSt.currentPage < 600) ∧
      (recD (tick Category.intensive "b5" "u5" 7 capSt storeEmpty).state capSt.currentPage =
        recD capSt capSt.currentPage + 1 ∧
      (recD capSt capSt.currentPage + 1 < 600 →
        (tick Category.intensive "b5" "u5" 7 capSt storeEmpty).stoppedAdapter = false ∧
        (tick Category.intensive "b5" "u5" 7 capSt storeEmpty).persisted = none ∧
        cappedD (tick Category.intensive "b5" "u5" 7 capSt storeEmpty).state
          capSt.currentPage = false ∧
        (tick Category.intensive "b5" "u5" 7 capSt storeEmpty).state.isRecording = true) ∧
      (recD capSt capSt.currentPage + 1 = 600 →
        (tick Category.intensive "b5" "u5" 7 capSt storeEmpty).stoppedAdapter = true ∧
        (tick Category.intensive "b5" "u5" 7 capSt storeEmpty).state.isRecording = false ∧
        cappedD (tick Category.intensive "b5" "u5" 7 capSt storeEmpty).state
          capSt.currentPage = true ∧
        ∃ prog, (tick Category.intensive "b5" "u5" 7 capSt storeEmpty).persisted = some prog ∧
          ∃ t, lookupK prog.pageTimers capSt.currentPage = some t ∧
            t.recordedTotalSeconds = some 600 ∧ t.isCapped = some true ∧
            t.totalTime = timersD capSt capSt.currentPage + 1)) :=
  ⟨⟨rfl, by decide, by decide⟩,
    intensive_recording_cap_tick "b5" "u5" 7 capSt storeEmpty rfl (by decide) (by decide)⟩

/-! ## C1: extensive overtime policy for 1- and 2-page books -/

/-- C1: On an extensive book, when the current page first crosses 420 s of
dwell: in a 1-page book the whole session resets immediately (no lifeline
step); in a 2-page book with no page exceeded yet and the lifeline unused,
the lifeline is consumed (recording stopped, page capped, reading
continues, `lifelineUsed` becomes true locally and in the persisted
document); and once the other page is already marked exceeded (as it is
after the lifeline was spent there), the second crossing triggers the full
session reset. -/
theorem extensive_overtime_policy (bookId userId : String) (grade : Nat)
    (pathOpt : Option String) (st : ReaderState) (store : Store)
    (hcross : 420 ≤ lookupD st.timersByPage st.currentPage 0)
    (hnew : exceededD st st.currentPage = false) :
    ((runExtensiveOvertime Category.extensive bookId userId grade 1 pathOpt st store).2.2 =
        OvertimeOutcome.resetSession "Time limit 7m reached"
          "Your session is restarted from the first page. Audio for this book was cleared." ∧
      (runExtensiveOvertime Category.extensive bookId userId grade 1 pathOpt
        st store).1.timersByPage = [] ∧
      (runExtensiveOvertime Category.extensive bookId userId grade 1 pathOpt
        st store).1.lifelineUsed = false) ∧
    (exceededD st 1 = false → exceededD st 2 = false → st.lifelineUsed = false →
      (extensiveOvertimeEffect Category.extensive bookId userId 2 pathOpt st store).2.2 =
        OvertimeOutcome.lifelineConsumed ∧
      (extensiveOvertimeEffect Category.extensive bookId userId 2 pathOpt
        st store).1.lifelineUsed = true ∧
      cappedD (extensiveOvertimeEffect Category.extensive bookId userId 2 pathOpt
        st store).1 st.currentPage = true ∧
      (extensiveOvertimeEffect Category.extensive bookId userId 2 pathOpt
        st store).1.isRecording = false ∧
      (∃ d, lookupK (extensiveOvertimeEffect Category.extensive bookId userId 2 pathOpt
          st store).2.1.progressDocs (userId, bookId) = some d ∧
        d.lifelineUsed = some true)) ∧
    (st.currentPage = 2 → exceededD st 1 = true →
      (runExtensiveOvertime Category.extensive bookId userId grade 2 pathOpt st store).2.2 =
        OvertimeOutcome.resetSession "7m reached for both pages"
          "Both pages exceeded 7:00. Restarting from page 1; audio has been cleared." ∧
      (runExtensiveOvertime Category.extensive bookId userId grade 2 pathOpt
        st store).1.timersByPage = [] ∧
      (runExtensiveOvertime Category.extensive bookId userId grade 2 pathOpt
        st store).1.lifelineUsed = false) := by
  have hnotlt : ¬ lookupD st.timersByPage st.currentPage 0 < 420 := by omega
  refine ⟨?_, ?_, ?_⟩
  · unfold runExtensiveOvertime extensiveOvertimeEffect
    simp only [if_neg hnotlt, hnew, ne_eq, not_true_eq_false, if_false,
      Bool.false_eq_true, if_pos rfl]
    exact ⟨rfl, rfl, rfl⟩
  · intro h1 h2 hll
    unfold extensiveOvertimeEffect
    simp only [if_neg hnotlt, hnew, h1, h2, hll, ne_eq, not_true_eq_false, if_false,
      Bool.false_eq_true, Bool.not_false, if_true, if_pos rfl]
    rw [if_neg (by decide), if_neg (by decide)]
    cases pathOpt with
    | none =>
      refine ⟨rfl, rfl, ?_, rfl, ?_⟩
      · simp [cappedD, lookupD_insertK_self, stopCurrentRecording, finalizePageTime]
      · exact ⟨_, lookupK_updateBookProgress _ _, rfl⟩
    | some path =>
      refine ⟨rfl, rfl, ?_, rfl, ?_⟩
      · simp [cappedD, lookupD_insertK_self, stopCurrentRecording, finalizePageTime]
      · exact ⟨_, lookupK_updateBookProgress _ _, rfl⟩
  · intro hcp hex1
    have hex2 : exceededD st 2 = false := by rw [← hcp]; exact hnew
    unfold runExtensiveOvertime extensiveOvertimeEffect
    simp only [if_neg hnotlt, hnew, hex1, hex2, ne_eq, not_true_eq_false, if_false,
      Bool.false_eq_true, if_true]
    rw [if_pos (show 1 ≤ 1 + 0 by decide)]
    exact ⟨rfl, rfl, rfl⟩

/-- Witness for `extensive_overtime_policy` at the concrete crossing
state. -/
theorem extensive_overtime_policy_witness :
    (420 ≤ lookupD overtimeSt.timersByPage overtimeSt.currentPage 0 ∧
      exceededD overtimeSt overtimeSt.currentPage = false) ∧
      (((runExtensiveOvertime Category.extensive "b6" "u6" 5 1 none overtimeSt storeEmpty).2.2 =
          OvertimeOutcome.resetSession "Time limit 7m reached"
            "Your session is restarted from the first page. Audio for this book was cleared." ∧
        (runExtensiveOvertime Category.extensive "b6" "u6" 5 1 none overtimeSt
          storeEmpty).1.timersByPage = [] ∧
        (runExtensiveOvertime Category.extensive "b6" "u6" 5 1 none overtimeSt
          storeEmpty).1.lifelineUsed = false) ∧
      (exceededD overtimeSt 1 = false → exceededD overtimeSt 2 = false →
        overtimeSt.lifelineUsed = false →
        (extensiveOvertimeEffect Category.extensive "b6" "u6" 2 none overtimeSt
          storeEmpty).2.2 = OvertimeOutcome.lifelineConsumed ∧
        (extensiveOvertimeEffect Category.extensive "b6" "u6" 2 none overtimeSt
          storeEmpty).1.lifelineUsed = true ∧
        cappedD (extensiveOvertimeEffect Category.extensive "b6" "u6" 2 none overtimeSt
          storeEmpty).1 overtimeSt.currentPage = true ∧
        (extensiveOvertimeEffect Category.extensive "b6" "u6" 2 none overtimeSt
          storeEmpty).1.isRecording = false ∧
        (∃ d, lookupK (extensiveOvertimeEffect Category.extensive "b6" "u6" 2 none overtimeSt
            storeEmpty).2.1.progressDocs ("u6", "b6") = some d ∧
          d.lifelineUsed = some true)) ∧
      (overtimeSt.currentPage = 2 → exceededD overtimeSt 1 = true →
        (runExtensiveOvertime Category.extensive "b6" "u6" 5 2 none overtimeSt storeEmpty).2.2 =
          OvertimeOutcome.resetSession "7m reached for both pages"
            "Both pages exceeded 7:00. Restarting from page 1; audio has been cleared." ∧
        (runExtensiveOvertime Category.extensive "b6" "u6" 5 2 none overtimeSt
          storeEmpty).1.timersByPage = [] ∧
        (runExtensiveOvertime Category.extensive "b6" "u6" 5 2 none overtimeSt
          storeEmpty).1.lifelineUsed = false)) :=
  ⟨⟨by decide, by decide⟩,
    extensive_overtime_policy "b6" "u6" 5 none overtimeSt storeEmpty (by decide) (by decide)⟩

/-- C10 counterexample: in a 3-page extensive book, a page that crossed
420 s is not left "unaffected": although the overtime effect itself takes
no action, `startRecordingForPage` refuses to start capture on that page
and marks it capped — contradicting the claim that crossing 420 s in a
3-or-more-page book triggers no policy action at all for the page. -/
theorem extensive_three_page_not_unaffected_cex :
    extensiveOvertimeEffect Category.extensive "b7" "u7" 3 none threePageSt storeEmpty =
      (threePageSt, storeEmpty, OvertimeOutcome.noAction) ∧
    (startRecordingForPage Category.extensive "b7" "u7" 3 2 threePageSt storeEmpty).2.2 =
      false ∧
    cappedD (startRecordingForPage Category.extensive "b7" "u7" 3 2 threePageSt
      storeEmpty).1 2 = true := by
  decide

/-- C10 (amended): in an extensive book with three or more pages, the
overtime effect takes no action whatsoever when a page crosses 420 s — no
lifeline consumption, no cap, no mid-page recording stop, no reset — but
the crossing is not consequence-free: any later attempt to start capture
on a page whose stopwatch reached 420 s is refused and the page is marked
capped. -/
theorem extensive_three_page_overtime_amended (bookId userId : String)
    (totalPages : Nat) (pathOpt : Option String) (st : ReaderState) (store : Store)
    (page : Nat) (htp : 3 ≤ totalPages) :
    extensiveOvertimeEffect Category.extensive bookId userId totalPages pathOpt st store =
      (st, store, OvertimeOutcome.noAction) ∧
    (420 ≤ lookupD st.timersByPage page 0 →
      (startRecordingForPage Category.extensive bookId userId totalPages page st store).2.2 =
        false ∧
      cappedD (startRecordingForPage Category.extensive bookId userId totalPages page st
        store).1 page = true) := by
  constructor
  · unfold extensiveOvertimeEffect
    rw [if_neg (show ¬(Category.extensive ≠ Category.extensive) by simp)]
    by_cases hlt : lookupD st.timersByPage st.currentPage 0 < 420
    · rw [if_pos hlt]
    · rw [if_neg hlt]
      by_cases hex : exceededD st st.currentPage
      · rw [if_pos hex]
      · rw [if_neg hex]
        rw [if_neg (show ¬(totalPages = 1) by omega)]
        rw [if_neg (show ¬(totalPages = 2) by omega)]
  · intro hcross
    unfold startRecordingForPage
    have hcond : (exceededD st page || decide (420 ≤ lookupD st.timersByPage page 0) ||
        decide (420 ≤ ((persistedTimer st page).map PageTimer.totalTime).getD 0)) = true := by
      simp [hcross]
    simp only [hcond, if_true]
    exact ⟨trivial, by simp [cappedD, lookupD_insertK_self]⟩

/-- Witness for `extensive_three_page_overtime_amended` at the concrete
3-page fixture. -/
theorem extensive_three_page_overtime_amended_witness :
    3 ≤ 3 ∧
      (extensiveOvertimeEffect Category.extensive "b8" "u8" 3 none threePageSt storeEmpty =
        (threePageSt, storeEmpty, OvertimeOutcome.noAction) ∧
      (420 ≤ lookupD threePageSt.timersByPage 2 0 →
        (startRecordingForPage Category.extensive "b8" "u8" 3 2 threePageSt
          storeEmpty).2.2 = false ∧
        cappedD (startRecordingForPage Category.extensive "b8" "u8" 3 2 threePageSt
          storeEmpty).1 2 = true)) :=
  ⟨by decide, extensive_three_page_overtime_amended "b8" "u8" 3 none threePageSt storeEmpty 2
    (by decide)⟩

/-- C6: On submit-in-progress with 2 queued segments for page 1 and 1 for
page 2, the segments are uploaded page-ascending and oldest-first
(`p1s1, p1s2, p2s1`) and the reported progress passes through 0, 33, 66
and 100.  However, `isSubmitted` does NOT become true "only after all
uploads succeed": `handleMandatoryUpload` swallows its upload failure, so
`handleSubmitInProgress` calls `submitBook` and the store is marked
submitted even when an upload in the batch failed. -/
theorem submit_marks_submitted_despite_failed_upload :
    ((handleSubmitInProgress okAll "u9" "b9" 5 7 none submitSt submitStore).1.calls =
        [(1, "p1s1"), (1, "p1s2"), (2, "p2s1")] ∧
      (handleSubmitInProgress okAll "u9" "b9" 5 7 none submitSt submitStore).1.success = true ∧
      0 ∈ (handleSubmitInProgress okAll "u9" "b9" 5 7 none submitSt submitStore).1.trace ∧
      33 ∈ (handleSubmitInProgress okAll "u9" "b9" 5 7 none submitSt submitStore).1.trace ∧
      66 ∈ (handleSubmitInProgress okAll "u9" "b9" 5 7 none submitSt submitStore).1.trace ∧
      100 ∈ (handleSubmitInProgress okAll "u9" "b9" 5 7 none submitSt submitStore).1.trace ∧
      (∃ d, lookupK (handleSubmitInProgress okAll "u9" "b9" 5 7 none submitSt
          submitStore).2.progressDocs ("u9", "b9") = some d ∧ d.isSubmitted = true)) ∧
    ((handleSubmitInProgress okFailSecond "u9" "b9" 5 7 none submitSt
        submitStore).1.success = false ∧
      (handleSubmitInProgress okFailSecond "u9" "b9" 5 7 none submitSt submitStore).1.calls =
        [(1, "p1s1"), (1, "p1s2")] ∧
      (∃ d, lookupK (handleSubmitInProgress okFailSecond "u9" "b9" 5 7 none submitSt
          submitStore).2.progressDocs ("u9", "b9") = some d ∧ d.isSubmitted = true)) := by
  decide

/-! ## C7: failed upload batches -/

theorem uploadLoop_progressDocs (uploadOk : String → Bool) (userId bookId : String)
    (grade totalSegments : Nat) :
    ∀ (segs : List (Nat × String)) (uploaded : Nat) (store : Store) (trace : List Nat),
      (uploadLoop uploadOk userId bookId grade totalSegments segs uploaded store
        trace).2.2.1.progressDocs = store.progressDocs := by
  intro segs
  induction segs with
  | nil => intro uploaded store trace; rfl
  | cons e rest ih =>
    intro uploaded store trace
    obtain ⟨page, path⟩ := e
    unfold uploadLoop
    by_cases hok : uploadOk path = true
    · simp only [hok, if_true]
      rcases hres : uploadLoop uploadOk userId bookId grade totalSegments rest (uploaded + 1)
          { store with audioFiles := store.audioFiles ++
              [{ userId := userId, bookId := bookId, grade := grade, page := page
                 seq := store.audioFiles.length }] }
          (trace ++ uploadProgressSteps.map
            (fun p => weightedProgress (uploaded * 100 / totalSegments) p totalSegments))
        with ⟨calls, trace2, store2, ok2, n2⟩
      have ih' := ih (uploaded + 1)
        { store with audioFiles := store.audioFiles ++
            [{ userId := userId, bookId := bookId, grade := grade, page := page
               seq := store.audioFiles.length }] }
        (trace ++ uploadProgressSteps.map
          (fun p => weightedProgress (uploaded * 100 / totalSegments) p totalSegments))
      rw [hres] at ih'
      simpa [hres] using ih'
    · simp [hok]

theorem uploadLoop_fail_spec (uploadOk : String → Bool) (userId bookId : String)
    (grade totalSegments : Nat) :
    ∀ (segs : List (Nat × String)) (uploaded : Nat) (store : Store) (trace : List Nat),
      (uploadLoop uploadOk userId bookId grade totalSegments segs uploaded store
        trace).2.2.2.1 = false →
      ∃ l1 x l2, segs = l1 ++ x :: l2 ∧ (∀ y ∈ l1, uploadOk y.2 = true) ∧
        uploadOk x.2 = false ∧
        (uploadLoop uploadOk userId bookId grade totalSegments segs uploaded store
          trace).1 = l1 ++ [x] := by
  intro segs
  induction segs with
  | nil =>
    intro uploaded store trace hfalse
    exact absurd hfalse (by simp [uploadLoop])
  | cons e rest ih =>
    intro uploaded store trace hfalse
    obtain ⟨page, path⟩ := e
    by_cases hok : uploadOk path = true
    · rw [uploadLoop] at hfalse ⊢
      simp only [hok, if_true] at hfalse ⊢
      rcases hres : uploadLoop uploadOk userId bookId grade totalSegments rest (uploaded + 1)
          { store with audioFiles := store.audioFiles ++
              [{ userId := userId, bookId := bookId, grade := grade, page := page
                 seq := store.audioFiles.length }] }
          (trace ++ uploadProgressSteps.map
            (fun p => weightedProgress (uploaded * 100 / totalSegments) p totalSegments))
        with ⟨calls, trace2, store2, ok2, n2⟩
      rw [hres] at hfalse
      have hok2 : ok2 = false := hfalse
      have ih' := ih (uploaded + 1)
        { store with audioFiles := store.audioFiles ++
            [{ userId := userId, bookId := bookId, grade := grade, page := page
               seq := store.audioFiles.length }] }
        (trace ++ uploadProgressSteps.map
          (fun p => weightedProgress (uploaded * 100 / totalSegments) p totalSegments))
        (by rw [hres]; exact hok2)
      rw [hres] at ih'
      rcases ih' with ⟨l1, x, l2, hsplit, hpre, hx, hcalls⟩
      refine ⟨(page, path) :: l1, x, l2, by rw [hsplit]; rfl, ?_, hx, ?_⟩
      · intro y hy
        rcases List.mem_cons.mp hy with hy | hy
        · subst hy; exact hok
        · exact hpre y hy
      · simpa using hcalls
    · rw [uploadLoop]
      simp only [Bool.not_eq_true] at hok
      simp only [hok, Bool.false_eq_true, if_false]
      exact ⟨[], (page, path), rest, rfl, fun y hy => absurd hy (List.not_mem_nil y), hok, rfl⟩

/-- C7 counterexample: after a failed batch (`a1` uploaded, `a2` failed),
the whole queue — including the already-uploaded `a1` — remains, so the
next retry re-uploads `a1` first and stores a second remote copy of it;
the claim that already-uploaded segments are not re-uploaded on retry is
false on the code. -/
theorem failed_batch_reuploads_on_retry_cex :
    (handleMandatoryUpload retryOk "u10" "b10" 5 none retrySt storeEmpty).success = false ∧
    (handleMandatoryUpload retryOk "u10" "b10" 5 none retrySt storeEmpty).calls =
      [(1, "a1"), (1, "a2")] ∧
    (handleMandatoryUpload retryOk "u10" "b10" 5 none retrySt
      storeEmpty).state.recordingsByPage = [(1, ["a1", "a2"])] ∧
    (handleMandatoryUpload retryOk "u10" "b10" 5 none
      (handleMandatoryUpload retryOk "u10" "b10" 5 none retrySt storeEmpty).state
      (handleMandatoryUpload retryOk "u10" "b10" 5 none retrySt storeEmpty).store).calls.head? =
      some (1, "a1") ∧
    (handleMandatoryUpload retryOk "u10" "b10" 5 none
      (handleMandatoryUpload retryOk "u10" "b10" 5 none retrySt storeEmpty).state
      (handleMandatoryUpload retryOk "u10" "b10" 5 none retrySt
        storeEmpty).store).store.audioFiles.length = 2 := by
  decide

/-- C7 (amended): when a segment upload fails during a submit batch, the
batch is aborted at the first failing segment (segments after it are not
attempted), the persisted `ReadingProgress` is untouched by the failure,
and ALL segments of the batch — including the ones already uploaded
before the failure — remain queued in the in-memory segment map, so the
next retry re-uploads them under fresh remote keys. -/
theorem upload_failure_aborts_and_preserves_queue (uploadOk : String → Bool)
    (userId bookId : String) (grade : Nat) (st : ReaderState) (store : Store)
    (hfail : (handleMandatoryUpload uploadOk userId bookId grade none st store).success = false)
    (hbatch : (handleMandatoryUpload uploadOk userId bookId grade none st store).noAudio =
      false) :
    (handleMandatoryUpload uploadOk userId bookId grade none st store).state.recordingsByPage =
      st.recordingsByPage ∧
    (handleMandatoryUpload uploadOk userId bookId grade none st store).state.progress =
      st.progress ∧
    (handleMandatoryUpload uploadOk userId bookId grade none st store).store.progressDocs =
      store.progressDocs ∧
    ∃ l1 x l2,
      batchSegs st.recordingsByPage = l1 ++ x :: l2 ∧
      (∀ y ∈ l1, uploadOk y.2 = true) ∧ uploadOk x.2 = false ∧
      (handleMandatoryUpload uploadOk userId bookId grade none st store).calls = l1 ++ [x] := by
  simp only [handleMandatoryUpload, stopCurrentRecording] at hfail hbatch ⊢
  by_cases hlen : (batchPages st.recordingsByPage).length = 0
  · rw [if_pos hlen] at hbatch
    exact absurd hbatch (by simp)
  · rw [if_neg hlen] at hfail ⊢
    by_cases hok : (uploadLoop uploadOk userId bookId grade (batchTotal st.recordingsByPage)
        (batchSegs st.recordingsByPage) 0 store [0]).2.2.2.1 = true
    · rw [if_pos hok] at hfail
      exact absurd hfail (by simp)
    · have hok' : (uploadLoop uploadOk userId bookId grade (batchTotal st.recordingsByPage)
          (batchSegs st.recordingsByPage) 0 store [0]).2.2.2.1 = false :=
        Bool.not_eq_true _ ▸ (by simpa using hok)
      rw [if_neg hok] at hfail ⊢
      refine ⟨rfl, rfl, ?_, ?_⟩
      · exact uploadLoop_progressDocs uploadOk userId bookId grade
          (batchTotal st.recordingsByPage) (batchSegs st.recordingsByPage) 0 store [0]
      · exact uploadLoop_fail_spec uploadOk userId bookId grade
          (batchTotal st.recordingsByPage) (batchSegs st.recordingsByPage) 0 store [0] hok'

/-- Witness for `upload_failure_aborts_and_preserves_queue` at a concrete
failed batch. -/
theorem upload_failure_aborts_and_preserves_queue_witness :
    ((handleMandatoryUpload retryWOk "u11" "b11" 5 none retryWSt storeEmpty).success = false ∧
      (handleMandatoryUpload retryWOk "u11" "b11" 5 none retryWSt storeEmpty).noAudio =
        false) ∧
      ((handleMandatoryUpload retryWOk "u11" "b11" 5 none retryWSt
          storeEmpty).state.recordingsByPage = retryWSt.recordingsByPage ∧
      (handleMandatoryUpload retryWOk "u11" "b11" 5 none retryWSt storeEmpty).state.progress =
        retryWSt.progress ∧
      (handleMandatoryUpload retryWOk "u11" "b11" 5 none retryWSt
        storeEmpty).store.progressDocs = storeEmpty.progressDocs ∧
      ∃ l1 x l2,
        batchSegs retryWSt.recordingsByPage = l1 ++ x :: l2 ∧
        (∀ y ∈ l1, retryWOk y.2 = true) ∧ retryWOk x.2 = false ∧
        (handleMandatoryUpload retryWOk "u11" "b11" 5 none retryWSt storeEmpty).calls =
          l1 ++ [x]) :=
  ⟨⟨by decide, by decide⟩,
    upload_failure_aborts_and_preserves_queue retryWOk "u11" "b11" 5 retryWSt storeEmpty
      (by decide) (by decide)⟩

/-! ## C4: resume re-derivation of the cap -/

theorem keysK_cons {κ α : Type} (e : κ × α) (rest : List (κ × α)) :
    keysK (e :: rest) = e.1 :: keysK rest := rfl

theorem nodup_keysK_cons {κ α : Type} {e : κ × α} {rest : List (κ × α)}
    (h : (keysK (e :: rest)).Nodup) : e.1 ∉ keysK rest ∧ (keysK rest).Nodup :=
  List.nodup_cons.mp (keysK_cons e rest ▸ h)

theorem mem_keysK_of_mem {κ α : Type} {m : List (κ × α)} {k : κ} {v : α}
    (h : (k, v) ∈ m) : k ∈ keysK m :=
  List.mem_map.mpr ⟨(k, v), h, rfl⟩

theorem lookupK_eq_of_mem_nodup {κ α : Type} [DecidableEq κ] (m : List (κ × α)) (k : κ) (v : α)
    (hnd : (keysK m).Nodup) (hmem : (k, v) ∈ m) : lookupK m k = some v := by
  induction m with
  | nil => cases hmem
  | cons e rest ih =>
    have hnd' := nodup_keysK_cons hnd
    rcases List.mem_cons.mp hmem with hmem | hmem
    · subst hmem; simp [lookupK]
    · have hne : e.1 ≠ k := fun hk => hnd'.1 (hk ▸ mem_keysK_of_mem hmem)
      simp only [lookupK, if_neg hne]
      exact ih hnd'.2 hmem

theorem mem_keysK_insertK {κ α : Type} [DecidableEq κ] (m : List (κ × α)) (k a : κ) (v : α)
    (h : a ∈ keysK (insertK m k v)) : a = k ∨ a ∈ keysK m := by
  induction m with
  | nil => simpa [insertK, keysK] using h
  | cons e rest ih =>
    by_cases he : e.1 = k
    · simp only [insertK, if_pos he, keysK_cons, List.mem_cons] at h ⊢
      rcases h with h | h
      · exact Or.inl h
      · exact Or.inr (Or.inr h)
    · simp only [insertK, if_neg he, keysK_cons, List.mem_cons] at h ⊢
      rcases h with h | h
      · exact Or.inr (Or.inl h)
      · rcases ih h with h | h
        · exact Or.inl h
        · exact Or.inr (Or.inr h)

theorem keysK_insertK_nodup {κ α : Type} [DecidableEq κ] (m : List (κ × α)) (k : κ) (v : α)
    (h : (keysK m).Nodup) : (keysK (insertK m k v)).Nodup := by
  induction m with
  | nil => simp [insertK, keysK]
  | cons e rest ih =>
    have h' := nodup_keysK_cons h
    by_cases he : e.1 = k
    · subst he
      simpa [insertK, keysK_cons] using h
    · simp only [insertK, if_neg he, keysK_cons, List.nodup_cons]
      refine ⟨?_, ih h'.2⟩
      intro hmem
      rcases mem_keysK_insertK rest k e.1 v hmem with hk | hk
      · exact he hk
      · exact h'.1 hk

theorem condInsertFold_cons {α : Type} (g : PageTimer → Option α) (e : Nat × PageTimer)
    (rest : List (Nat × PageTimer)) (acc : List (Nat × α)) :
    condInsertFold g (e :: rest) acc =
      condInsertFold g rest
        (match g e.2 with | some v => insertK acc e.1 v | none => acc) := by
  simp only [condInsertFold, List.foldl_cons]

theorem condInsertFold_lookup_not_mem {α : Type} (g : PageTimer → Option α) (p : Nat) :
    ∀ (l : List (Nat × PageTimer)) (acc : List (Nat × α)), p ∉ keysK l →
      lookupK (condInsertFold g l acc) p = lookupK acc p := by
  intro l
  induction l with
  | nil => intro acc _; rfl
  | cons e rest ih =>
    intro acc hp
    rw [keysK_cons] at hp
    have hp' : p ∉ keysK rest := fun h => hp (List.mem_cons.mpr (Or.inr h))
    have hne : e.1 ≠ p := fun h => hp (List.mem_cons.mpr (Or.inl h.symm))
    rw [condInsertFold_cons]
    cases hg : g e.2 with
    | none =>
      simp only [hg]
      exact ih acc hp'
    | some v =>
      simp only [hg]
      rw [ih _ hp']
      exact lookupK_insertK_ne _ _ _ _ hne

theorem condInsertFold_lookup_mem {α : Type} (g : PageTimer → Option α) (p : Nat)
    (t : PageTimer) :
    ∀ (l : List (Nat × PageTimer)) (acc : List (Nat × α)), (keysK l).Nodup → (p, t) ∈ l →
      lookupK (condInsertFold g l acc) p =
        (match g t with | some v => some v | none => lookupK acc p) := by
  intro l
  induction l with
  | nil => intro acc _ hmem; cases hmem
  | cons e rest ih =>
    intro acc hnd hmem
    have hnd' := nodup_keysK_cons hnd
    rw [condInsertFold_cons]
    rcases List.mem_cons.mp hmem with hmem | hmem
    · subst hmem
      have hrest : p ∉ keysK rest := hnd'.1
      cases hg : g t with
      | none =>
        simp only [hg]
        exact condInsertFold_lookup_not_mem g p rest acc hrest
      | some v =>
        simp only [hg]
        rw [condInsertFold_lookup_not_mem g p rest _ hrest]
        exact lookupK_insertK_self _ _ _
    · have hne : e.1 ≠ p := fun hk => hnd'.1 (hk ▸ mem_keysK_of_mem hmem)
      cases hg : g e.2 with
      | none =>
        simp only [hg]
        exact ih acc hnd'.2 hmem
      | some v =>
        simp only [hg]
        rw [ih _ hnd'.2 hmem]
        cases hgt : g t with
        | none => exact lookupK_insertK_ne _ _ _ _ hne
        | some w => rfl

theorem condInsertFold_keys_nodup {α : Type} (g : PageTimer → Option α) :
    ∀ (l : List (Nat × PageTimer)) (acc : List (Nat × α)), (keysK acc).Nodup →
      (keysK (condInsertFold g l acc)).Nodup := by
  intro l
  induction l with
  | nil => intro acc h; exact h
  | cons e rest ih =>
    intro acc h
    rw [condInsertFold_cons]
    cases hg : g e.2 with
    | none => simp only [hg]; exact ih acc h
    | some v => simp only [hg]; exact ih _ (keysK_insertK_nodup _ _ _ h)

theorem seedMaps_fst_eq (l : List (Nat × PageTimer)) :
    ∀ acc, (l.foldl seedStep acc).1 =
      condInsertFold (fun t => some t.totalTime) l acc.1 := by
  induction l with
  | nil => intro acc; rfl
  | cons e rest ih =>
    intro acc
    rw [List.foldl_cons, ih (seedStep acc e), condInsertFold_cons]
    rfl

theorem seedMaps_thd_eq (l : List (Nat × PageTimer)) :
    ∀ acc, (l.foldl seedStep acc).2.2 =
      condInsertFold (fun t => if reachedCapB t then some true else none) l acc.2.2 := by
  induction l with
  | nil => intro acc; rfl
  | cons e rest ih =>
    intro acc
    rw [List.foldl_cons, ih (seedStep acc e), condInsertFold_cons]
    by_cases hc : reachedCapB e.2 = true
    · simp only [hc, if_true, seedStep]
    · simp only [Bool.not_eq_true] at hc
      simp only [hc, Bool.false_eq_true, if_false, seedStep]

theorem lookupK_mergeK {κ α : Type} [DecidableEq κ] (k : κ) :
    ∀ (upd base : List (κ × α)), (keysK upd).Nodup →
      lookupK (mergeK base upd) k =
        (match lookupK upd k with | some v => some v | none => lookupK base k) := by
  intro upd
  induction upd with
  | nil => intro base _; rfl
  | cons e rest ih =>
    intro base hnd
    have hnd' := nodup_keysK_cons hnd
    have hstep : mergeK base (e :: rest) = mergeK (insertK base e.1 e.2) rest := rfl
    rw [hstep, ih _ hnd'.2]
    by_cases he : e.1 = k
    · subst he
      have hnone : lookupK rest e.1 = none :=
        lookupK_eq_none_of_not_mem _ _ hnd'.1
      rw [hnone]
      simp [lookupK, lookupK_insertK_self]
    · cases hr : lookupK rest k with
      | some v => simp [lookupK, hr, he]
      | none => simp [lookupK, hr, he, lookupK_insertK_ne _ _ _ _ he]

theorem lookupK_map_true {β : Type} (l : List (Nat × β)) (p : Nat) (v : Bool) :
    lookupK (l.map (fun e => (e.1, true))) p = some v → v = true := by
  induction l with
  | nil => intro h; cases h
  | cons e rest ih =>
    intro h
    simp only [List.map_cons, lookupK] at h
    by_cases he : e.1 = p
    · rw [if_pos he] at h; exact (Option.some.inj h).symm
    · rw [if_neg he] at h; exact ih h

/-- C4: On resume, a persisted page record with
`recordedTotalSeconds = 600` and no explicit `isCapped` flag is re-derived
as capped by `loadProgress`, and `startRecordingForPage` refuses to start
audio capture on that page (for either category; the data-model invariant
`recordedTotalSeconds ≤ totalTimeSeconds` supplies `600 ≤ totalTime`). -/
theorem resume_rederives_cap_and_refuses_capture (category : Category)
    (bookId userId : String) (totalPages : Nat) (doc : BookProgress) (store : Store)
    (p : Nat) (t : PageTimer)
    (hnd : (keysK doc.pageTimers).Nodup)
    (hmem : (p, t) ∈ doc.pageTimers)
    (hrec : t.recordedTotalSeconds = some 600)
    (hflag : t.isCapped = none)
    (hinv : 600 ≤ t.totalTime) :
    cappedD (loadProgress category totalPages doc initialReaderState) p = true ∧
    (startRecordingForPage category bookId userId totalPages p
      (loadProgress category totalPages doc initialReaderState) store).2.2 = false := by
  have hcapB : reachedCapB t = true := by
    simp [reachedCapB, hrec]
  have hSthd : (seedMaps doc.pageTimers).2.2 =
      condInsertFold (fun u => if reachedCapB u then some true else none) doc.pageTimers [] :=
    seedMaps_thd_eq doc.pageTimers ([], [], [])
  have hScap : lookupK (seedMaps doc.pageTimers).2.2 p = some true := by
    rw [hSthd, condInsertFold_lookup_mem _ p t doc.pageTimers [] hnd hmem]
    simp [hcapB]
  have hScapNodup : (keysK (seedMaps doc.pageTimers).2.2).Nodup := by
    rw [hSthd]
    exact condInsertFold_keys_nodup _ doc.pageTimers [] (by simp [keysK])
  have hSfst : (seedMaps doc.pageTimers).1 =
      condInsertFold (fun u => some u.totalTime) doc.pageTimers [] :=
    seedMaps_fst_eq doc.pageTimers ([], [], [])
  have hS1Nodup : (keysK (seedMaps doc.pageTimers).1).Nodup := by
    rw [hSfst]
    exact condInsertFold_keys_nodup _ doc.pageTimers [] (by simp [keysK])
  have hENodup : (keysK (((seedMaps doc.pageTimers).1.filter
      (fun e => 420 ≤ e.2)).map (fun e => (e.1, true)))).Nodup := by
    have hsub : List.Sublist
        (((seedMaps doc.pageTimers).1.filter (fun e => 420 ≤ e.2)).map Prod.fst)
        ((seedMaps doc.pageTimers).1.map Prod.fst) :=
      List.Sublist.map Prod.fst (List.filter_sublist _)
    have hkeq : keysK (((seedMaps doc.pageTimers).1.filter
        (fun e => 420 ≤ e.2)).map (fun e => (e.1, true))) =
        ((seedMaps doc.pageTimers).1.filter (fun e => 420 ≤ e.2)).map Prod.fst := by
      simp only [keysK, List.map_map]
      rfl
    rw [hkeq]
    exact List.Nodup.sublist hsub hS1Nodup
  have hcapfield : (loadProgress category totalPages doc initialReaderState).cappedByPage =
      (if category = Category.extensive ∧ totalPages = 2 then
        mergeK (mergeK initialReaderState.cappedByPage (seedMaps doc.pageTimers).2.2)
          (((seedMaps doc.pageTimers).1.filter (fun e => 420 ≤ e.2)).map
            (fun e => (e.1, true)))
      else mergeK initialReaderState.cappedByPage (seedMaps doc.pageTimers).2.2) := by
    by_cases hb : category = Category.extensive ∧ totalPages = 2
    · obtain ⟨hb1, hb2⟩ := hb
      subst hb1; subst hb2
      simp [loadProgress]
    · simp [loadProgress, hb]
  have hprog : (loadProgress category totalPages doc initialReaderState).progress =
      some doc := by
    by_cases hb : category = Category.extensive ∧ totalPages = 2
    · obtain ⟨hb1, hb2⟩ := hb
      subst hb1; subst hb2
      simp [loadProgress]
    · simp [loadProgress, hb]
  have hbase : lookupK (mergeK initialReaderState.cappedByPage
      (seedMaps doc.pageTimers).2.2) p = some true := by
    rw [lookupK_mergeK p _ _ hScapNodup, hScap]
  have hcapped : cappedD (loadProgress category totalPages doc initialReaderState) p = true := by
    unfold cappedD lookupD
    rw [hcapfield]
    by_cases hb : category = Category.extensive ∧ totalPages = 2
    · rw [if_pos hb]
      rw [lookupK_mergeK p _ _ hENodup]
      cases hE : lookupK (((seedMaps doc.pageTimers).1.filter
          (fun e => 420 ≤ e.2)).map (fun e => (e.1, true))) p with
      | some v =>
        have := lookupK_map_true _ p v hE
        subst this
        rfl
      | none =>
        rw [hbase]
        rfl
    · rw [if_neg hb]
      rw [hbase]
      rfl
  refine ⟨hcapped, ?_⟩
  cases category with
  | intensive =>
    unfold startRecordingForPage
    have heff : (cappedD (loadProgress Category.intensive totalPages doc initialReaderState) p
        || (((persistedTimer (loadProgress Category.intensive totalPages doc
              initialReaderState) p).bind PageTimer.isCapped) == some true)
        || (match (persistedTimer (loadProgress Category.intensive totalPages doc
              initialReaderState) p).bind PageTimer.recordedTotalSeconds with
            | some r => decide (600 ≤ r) | none => false)
        || decide (600 ≤ ((persistedTimer (loadProgress Category.intensive totalPages doc
              initialReaderState) p).map PageTimer.totalTime).getD 0)) = true := by
      rw [hcapped]
      rfl
    simp only [heff, if_true]
    by_cases hpg : ((persistedTimer (loadProgress Category.intensive totalPages doc
        initialReaderState) p).bind PageTimer.isCapped) = some true
    · rw [if_pos hpg]
    · rw [if_neg hpg]
  | extensive =>
    unfold startRecordingForPage
    have hpt : persistedTimer (loadProgress Category.extensive totalPages doc
        initialReaderState) p = some t := by
      unfold persistedTimer
      rw [hprog]
      exact lookupK_eq_of_mem_nodup _ _ _ hnd hmem
    have hx : (exceededD (loadProgress Category.extensive totalPages doc initialReaderState) p
        || decide (420 ≤ lookupD (loadProgress Category.extensive totalPages doc
              initialReaderState).timersByPage p 0)
        || decide (420 ≤ ((persistedTimer (loadProgress Category.extensive totalPages doc
              initialReaderState) p).map PageTimer.totalTime).getD 0)) = true := by
      rw [hpt]
      simp
      exact Or.inr (by omega)
    simp only [hx, if_true]

/-- Witness for `resume_rederives_cap_and_refuses_capture` at the
concrete resume document, intensive category. -/
theorem resume_rederives_cap_and_refuses_capture_witness :
    ((keysK resumeDoc.pageTimers).Nodup ∧ (3, resumePt) ∈ resumeDoc.pageTimers ∧
      resumePt.recordedTotalSeconds = some 600 ∧ resumePt.isCapped = none ∧
      600 ≤ resumePt.totalTime) ∧
      (cappedD (loadProgress Category.intensive 7 resumeDoc initialReaderState) 3 = true ∧
      (startRecordingForPage Category.intensive "b12" "u12" 7 3
        (loadProgress Category.intensive 7 resumeDoc initialReaderState) storeEmpty).2.2 =
        false) :=
  ⟨⟨by decide, by decide, by decide, by decide, by decide⟩,
    resume_rederives_cap_and_refuses_capture Category.intensive "b12" "u12" 7 resumeDoc
      storeEmpty 3 resumePt (by decide) (by decide) (by decide) (by decide) (by decide)⟩

theorem pTotal_congr {X st : ReaderState} (hP : X.progress = st.progress) (q : Nat) :
    pTotal X q = pTotal st q := by
  unfold pTotal persistedTimer
  rw [hP]

theorem pRec_congr {X st : ReaderState} (hP : X.progress = st.progress) (q : Nat) :
    pRec X q = pRec st q := by
  unfold pRec persistedTimer
  rw [hP]

theorem pCapFlag_congr {X st : ReaderState} (hP : X.progress = st.progress) (q : Nat) :
    pCapFlag X q = pCapFlag st q := by
  unfold pCapFlag persistedTimer
  rw [hP]

theorem timersD_congr {X st : ReaderState} (hT : X.timersByPage = st.timersByPage) (q : Nat) :
    timersD X q = timersD st q := by
  unfold timersD
  rw [hT]

theorem recD_congr {X st : ReaderState} (hR : X.recordedByPage = st.recordedByPage) (q : Nat) :
    recD X q = recD st q := by
  unfold recD
  rw [hR]

theorem cappedD_congr {X st : ReaderState} (hC : X.cappedByPage = st.cappedByPage) (q : Nat) :
    cappedD X q = cappedD st q := by
  unfold cappedD
  rw [hC]

theorem SessionInv_congr (c : Category) (st X : ReaderState)
    (hT : X.timersByPage = st.timersByPage) (hR : X.recordedByPage = st.recordedByPage)
    (hC : X.cappedByPage = st.cappedByPage) (hP : X.progress = st.progress)
    (hcp : X.currentPage = st.currentPage) (h : SessionInv c st) : SessionInv c X := by
  constructor
  · intro q; rw [pTotal_congr hP, timersD_congr hT]; exact h.persisted_le q
  · intro q hq; rw [pTotal_congr hP, timersD_congr hT]
    exact h.persisted_eq q (by rw [← hcp]; exact hq)
  · intro q; rw [recD_congr hR, timersD_congr hT]; exact h.rec_le q
  · intro q; rw [pRec_congr hP, pTotal_congr hP]; exact h.prec_le q
  · intro q hc hcap; rw [timersD_congr hT]
    exact h.capped_ge q hc (by rw [← cappedD_congr hC]; exact hcap)
  · intro q hflag; rw [pTotal_congr hP]
    exact h.capflag_ge q (by rw [← pCapFlag_congr hP]; exact hflag)

theorem stopCurrentRecording_fields (pathOpt : Option String) (st : ReaderState) :
    (stopCurrentRecording pathOpt st).timersByPage = st.timersByPage ∧
    (stopCurrentRecording pathOpt st).recordedByPage = st.recordedByPage ∧
    (stopCurrentRecording pathOpt st).cappedByPage = st.cappedByPage ∧
    (stopCurrentRecording pathOpt st).progress = st.progress ∧
    (stopCurrentRecording pathOpt st).currentPage = st.currentPage := by
  cases pathOpt <;> exact ⟨rfl, rfl, rfl, rfl, rfl⟩

theorem inv_bump (c : Category) (st X : ReaderState) (h : SessionInv c st)
    (hT : X.timersByPage = insertK st.timersByPage st.currentPage
      (lookupD st.timersByPage st.currentPage 0 + 1))
    (hR : X.recordedByPage = st.recordedByPage) (hC : X.cappedByPage = st.cappedByPage)
    (hP : X.progress = st.progress) (hcp : X.currentPage = st.currentPage) :
    (∀ q, timersD st q ≤ timersD X q) ∧ SessionInv c X := by
  have htq : ∀ q, timersD X q =
      if st.currentPage = q then timersD st st.currentPage + 1 else timersD st q := by
    intro q
    unfold timersD
    rw [hT, lookupD_insertK]
  have hmono : ∀ q, timersD st q ≤ timersD X q := by
    intro q
    rw [htq q]
    by_cases hq : st.currentPage = q
    · subst hq; simp
    · rw [if_neg hq]
  refine ⟨hmono, ?_⟩
  constructor
  · intro q
    rw [pTotal_congr hP]
    exact le_trans (h.persisted_le q) (hmono q)
  · intro q hq
    rw [hcp] at hq
    rw [pTotal_congr hP, htq q, if_neg (fun he => hq he.symm)]
    exact h.persisted_eq q hq
  · intro q
    rw [recD_congr hR]
    exact le_trans (h.rec_le q) (hmono q)
  · intro q
    rw [pRec_congr hP, pTotal_congr hP]
    exact h.prec_le q
  · intro q hc hcap
    exact le_trans (h.capped_ge q hc (by rw [← cappedD_congr hC]; exact hcap)) (hmono q)
  · intro q hf
    rw [pTotal_congr hP]
    exact h.capflag_ge q (by rw [← pCapFlag_congr hP]; exact hf)

theorem inv_bump_rec (c : Category) (st X : ReaderState) (h : SessionInv c st) (nr : Nat)
    (hT : X.timersByPage = insertK st.timersByPage st.currentPage
      (lookupD st.timersByPage st.currentPage 0 + 1))
    (hR : X.recordedByPage = insertK st.recordedByPage st.currentPage nr)
    (hC : X.cappedByPage = st.cappedByPage)
    (hP : X.progress = st.progress) (hcp : X.currentPage = st.currentPage)
    (hnrle : nr ≤ lookupD st.recordedByPage st.currentPage 0 + 1) :
    (∀ q, timersD st q ≤ timersD X q) ∧ SessionInv c X := by
  have htq : ∀ q, timersD X q =
      if st.currentPage = q then timersD st st.currentPage + 1 else timersD st q := by
    intro q
    unfold timersD
    rw [hT, lookupD_insertK]
  have hrq : ∀ q, recD X q =
      if st.currentPage = q then nr else recD st q := by
    intro q
    unfold recD
    rw [hR, lookupD_insertK]
  have hmono : ∀ q, timersD st q ≤ timersD X q := by
    intro q
    rw [htq q]
    by_cases hq : st.currentPage = q
    · subst hq; simp
    · rw [if_neg hq]
  refine ⟨hmono, ?_⟩
  constructor
  · intro q
    rw [pTotal_congr hP]
    exact le_trans (h.persisted_le q) (hmono q)
  · intro q hq
    rw [hcp] at hq
    rw [pTotal_congr hP, htq q, if_neg (fun he => hq he.symm)]
    exact h.persisted_eq q hq
  · intro q
    rw [hrq q, htq q]
    by_cases hq : st.currentPage = q
    · rw [if_pos hq, if_pos hq]
      have := h.rec_le st.currentPage
      simp only [recD, timersD] at this ⊢
      omega
    · rw [if_neg hq, if_neg hq]
      exact h.rec_le q
  · intro q
    rw [pRec_congr hP, pTotal_congr hP]
    exact h.prec_le q
  · intro q hc hcap
    exact le_trans (h.capped_ge q hc (by rw [← cappedD_congr hC]; exact hcap)) (hmono q)
  · intro q hf
    rw [pTotal_congr hP]
    exact h.capflag_ge q (by rw [← pCapFlag_congr hP]; exact hf)

theorem inv_bump_rec_cap (c : Category) (st X : ReaderState) (h : SessionInv c st) (nr : Nat)
    (hT : X.timersByPage = insertK st.timersByPage st.currentPage
      (lookupD st.timersByPage st.currentPage 0 + 1))
    (hR : X.recordedByPage = insertK st.recordedByPage st.currentPage nr)
    (hC : X.cappedByPage = insertK st.cappedByPage st.currentPage true)
    (hP : X.progress = st.progress) (hcp : X.currentPage = st.currentPage)
    (hnrle : nr ≤ lookupD st.recordedByPage st.currentPage 0 + 1)
    (h600 : 600 ≤ nr) :
    (∀ q, timersD st q ≤ timersD X q) ∧ SessionInv c X := by
  have htq : ∀ q, timersD X q =
      if st.currentPage = q then timersD st st.currentPage + 1 else timersD st q := by
    intro q
    unfold timersD
    rw [hT, lookupD_insertK]
  have hrq : ∀ q, recD X q =
      if st.currentPage = q then nr else recD st q := by
    intro q
    unfold recD
    rw [hR, lookupD_insertK]
  have hcq : ∀ q, cappedD X q =
      if st.currentPage = q then true else cappedD st q := by
    intro q
    unfold cappedD
    rw [hC, lookupD_insertK]
  have hmono : ∀ q, timersD st q ≤ timersD X q := by
    intro q
    rw [htq q]
    by_cases hq : st.currentPage = q
    · subst hq; simp
    · rw [if_neg hq]
  have hcur600 : 600 ≤ timersD st st.currentPage + 1 := by
    have := h.rec_le st.currentPage
    simp only [recD, timersD] at this ⊢
    omega
  refine ⟨hmono, ?_⟩
  constructor
  · intro q
    rw [pTotal_congr hP]
    exact le_trans (h.persisted_le q) (hmono q)
  · intro q hq
    rw [hcp] at hq
    rw [pTotal_congr hP, htq q, if_neg (fun he => hq he.symm)]
    exact h.persisted_eq q hq
  · intro q
    rw [hrq q, htq q]
    by_cases hq : st.currentPage = q
    · rw [if_pos hq, if_pos hq]
      have := h.rec_le st.currentPage
      simp only [recD, timersD] at this ⊢
      omega
    · rw [if_neg hq, if_neg hq]
      exact h.rec_le q
  · intro q
    rw [pRec_congr hP, pTotal_congr hP]
    exact h.prec_le q
  · intro q hc hcap
    rw [htq q]
    by_cases hq : st.currentPage = q
    · rw [if_pos hq]
      exact hq ▸ hcur600
    · rw [if_neg hq]
      rw [hcq q, if_neg hq] at hcap
      exact h.capped_ge q hc hcap
  · intro q hf
    rw [pTotal_congr hP]
    exact h.capflag_ge q (by rw [← pCapFlag_congr hP]; exact hf)

theorem pTotal_basePT (st : ReaderState) (q : Nat) :
    pTotal st q = ((lookupK (basePT st) q).map PageTimer.totalTime).getD 0 := by
  unfold pTotal
  rw [persistedTimer_eq_basePT]

theorem pRec_basePT (st : ReaderState) (q : Nat) :
    pRec st q = ((lookupK (basePT st) q).bind PageTimer.recordedTotalSeconds).getD 0 := by
  unfold pRec
  rw [persistedTimer_eq_basePT]

theorem pCapFlag_basePT (st : ReaderState) (q : Nat) :
    pCapFlag st q = (lookupK (basePT st) q).bind PageTimer.isCapped := by
  unfold pCapFlag
  rw [persistedTimer_eq_basePT]

theorem inv_cap_insert (c : Category) (st X : ReaderState) (h : SessionInv c st) (page : Nat)
    (hT : X.timersByPage = st.timersByPage) (hR : X.recordedByPage = st.recordedByPage)
    (hC : X.cappedByPage = insertK st.cappedByPage page true)
    (hP : X.progress = st.progress) (hcp : X.currentPage = st.currentPage)
    (h600 : c = Category.intensive → 600 ≤ timersD st page) :
    SessionInv c X := by
  constructor
  · intro q; rw [pTotal_congr hP, timersD_congr hT]; exact h.persisted_le q
  · intro q hq
    rw [pTotal_congr hP, timersD_congr hT]
    exact h.persisted_eq q (by rw [← hcp]; exact hq)
  · intro q; rw [recD_congr hR, timersD_congr hT]; exact h.rec_le q
  · intro q; rw [pRec_congr hP, pTotal_congr hP]; exact h.prec_le q
  · intro q hc hcap
    rw [timersD_congr hT]
    have hcq : cappedD X q = if page = q then true else cappedD st q := by
      unfold cappedD
      rw [hC, lookupD_insertK]
    rw [hcq] at hcap
    by_cases hq : page = q
    · exact hq ▸ h600 hc
    · rw [if_neg hq] at hcap
      exact h.capped_ge q hc hcap
  · intro q hf
    rw [pTotal_congr hP]
    exact h.capflag_ge q (by rw [← pCapFlag_congr hP]; exact hf)

theorem inv_persistCap (c : Category) (b u : String) (tp page nr : Nat)
    (st : ReaderState) (store : Store) (h : SessionInv c st)
    (hpage : page = st.currentPage)
    (h600 : 600 ≤ timersD st page) :
    (persistCapForPage b u tp page nr st store).1.timersByPage = st.timersByPage ∧
    SessionInv c (persistCapForPage b u tp page nr st store).1 := by
  rcases hlk : lookupK st.timersByPage page with _ | v
  · exfalso
    have hz : timersD st page = 0 := by
      unfold timersD lookupD
      rw [hlk]
      rfl
    omega
  have hv : timersD st page = v := by
    unfold timersD lookupD
    rw [hlk]
    rfl
  have hbX : basePT (persistCapForPage b u tp page nr st store).1 =
      insertK (basePT st) page
        { pageNumber := page
          totalTime := match lookupK st.timersByPage page with
            | some w => w
            | none => ((lookupK (basePT st) page).map PageTimer.totalTime).getD 0
          exceedanceCount := ((lookupK (basePT st) page).map PageTimer.exceedanceCount).getD 0
          isCompleted := true
          recordedTotalSeconds := some (min 600 nr)
          isCapped := some true } := rfl
  rw [hlk] at hbX
  have hXT : (persistCapForPage b u tp page nr st store).1.timersByPage = st.timersByPage := rfl
  have hXR : (persistCapForPage b u tp page nr st store).1.recordedByPage =
      st.recordedByPage := rfl
  have hXC : (persistCapForPage b u tp page nr st store).1.cappedByPage =
      st.cappedByPage := rfl
  have hXcp : (persistCapForPage b u tp page nr st store).1.currentPage =
      st.currentPage := rfl
  have hptX : ∀ q, pTotal (persistCapForPage b u tp page nr st store).1 q =
      if page = q then v else pTotal st q := by
    intro q
    rw [pTotal_basePT, hbX, lookupK_insertK]
    by_cases hq : page = q
    · rw [if_pos hq, if_pos hq]
      rfl
    · rw [if_neg hq, if_neg hq, ← pTotal_basePT]
  have hprX : ∀ q, pRec (persistCapForPage b u tp page nr st store).1 q =
      if page = q then min 600 nr else pRec st q := by
    intro q
    rw [pRec_basePT, hbX, lookupK_insertK]
    by_cases hq : page = q
    · rw [if_pos hq, if_pos hq]
      rfl
    · rw [if_neg hq, if_neg hq, ← pRec_basePT]
  have hpfX : ∀ q, pCapFlag (persistCapForPage b u tp page nr st store).1 q =
      if page = q then some true else pCapFlag st q := by
    intro q
    rw [pCapFlag_basePT, hbX, lookupK_insertK]
    by_cases hq : page = q
    · rw [if_pos hq, if_pos hq]
      rfl
    · rw [if_neg hq, if_neg hq, ← pCapFlag_basePT]
  refine ⟨hXT, ?_⟩
  constructor
  · intro q
    rw [hptX q, timersD_congr hXT]
    by_cases hq : page = q
    · rw [if_pos hq, ← hq, ← hv]
    · rw [if_neg hq]
      exact h.persisted_le q
  · intro q hq
    rw [hXcp] at hq
    have hqp : ¬ page = q := fun he => hq (by rw [← he, hpage])
    rw [hptX q, if_neg hqp, timersD_congr hXT]
    exact h.persisted_eq q hq
  · intro q
    rw [recD_congr hXR, timersD_congr hXT]
    exact h.rec_le q
  · intro q
    rw [hprX q, hptX q]
    by_cases hq : page = q
    · rw [if_pos hq, if_pos hq]
      have : min 600 nr ≤ 600 := Nat.min_le_left _ _
      omega
    · rw [if_neg hq, if_neg hq]
      exact h.prec_le q
  · intro q hc hcap
    rw [timersD_congr hXT]
    exact h.capped_ge q hc (by rw [← cappedD_congr hXC]; exact hcap)
  · intro q hf
    rw [hptX q]
    rw [hpfX q] at hf
    by_cases hq : page = q
    · rw [if_pos hq]
      omega
    · rw [if_neg hq]
      rw [if_neg hq] at hf
      exact h.capflag_ge q hf

theorem tick_inv (c : Category) (b u : String) (tp : Nat) (st : ReaderState) (store : Store)
    (h : SessionInv c st) :
    (∀ q, timersD st q ≤ timersD (tick c b u tp st store).state q) ∧
    SessionInv c (tick c b u tp st store).state := by
  unfold tick
  by_cases hc : c = Category.intensive
  case neg =>
    rw [if_neg hc]
    exact inv_bump c st _ h rfl rfl rfl rfl rfl
  case pos =>
    rw [if_pos hc]
    by_cases hcap : lookupD st.cappedByPage st.currentPage false = true
    · by_cases hrec : st.isRecording = true
      · simp only [hcap, hrec, Bool.and_self, if_true]
        exact inv_bump c st _ h rfl rfl rfl rfl rfl
      · have hrec' : st.isRecording = false := by
          cases hb : st.isRecording
          · rfl
          · exact absurd hb hrec
        simp only [hcap, hrec', Bool.and_false, Bool.not_true, Bool.false_and,
          Bool.false_eq_true, if_false]
        exact inv_bump c st _ h rfl rfl rfl rfl rfl
    · have hcap' : lookupD st.cappedByPage st.currentPage false = false := by
        cases hb : lookupD st.cappedByPage st.currentPage false
        · rfl
        · exact absurd hb hcap
      by_cases hrec : st.isRecording = true
      · simp only [hcap', hrec, Bool.false_and, Bool.false_eq_true, if_false,
          Bool.not_false, Bool.true_and, if_true]
        by_cases hlt : lookupD st.recordedByPage st.currentPage 0 < 600
        · rw [if_pos hlt]
          by_cases h6 : 600 ≤ min 600 (lookupD st.recordedByPage st.currentPage 0 + 1)
          · rw [if_pos h6]
            obtain ⟨hm3, hi3⟩ := inv_bump_rec_cap c st
              (tickBumpCap st (min 600 (lookupD st.recordedByPage st.currentPage 0 + 1))) h
              (min 600 (lookupD st.recordedByPage st.currentPage 0 + 1))
              rfl rfl rfl rfl rfl (Nat.min_le_right _ _) h6
            have ht3 : timersD (tickBumpCap st
                (min 600 (lookupD st.recordedByPage st.currentPage 0 + 1)))
                st.currentPage = lookupD st.timersByPage st.currentPage 0 + 1 := by
              unfold tickBumpCap timersD
              exact lookupD_insertK_self _ _ _ _
            have h600s : 600 ≤ timersD (tickBumpCap st
                (min 600 (lookupD st.recordedByPage st.currentPage 0 + 1)))
                st.currentPage := by
              have hr := h.rec_le st.currentPage
              simp only [recD, timersD] at hr
              have hmr : min 600 (lookupD st.recordedByPage st.currentPage 0 + 1) ≤
                  lookupD st.recordedByPage st.currentPage 0 + 1 := Nat.min_le_right _ _
              rw [ht3]
              omega
            obtain ⟨hTeq, hinvX⟩ := inv_persistCap c b u tp st.currentPage
              (min 600 (lookupD st.recordedByPage st.currentPage 0 + 1))
              (tickBumpCap st (min 600 (lookupD st.recordedByPage st.currentPage 0 + 1)))
              store hi3 rfl h600s
            exact ⟨fun q => le_trans (hm3 q) (le_of_eq (timersD_congr hTeq q).symm), hinvX⟩
          · rw [if_neg h6]
            exact inv_bump_rec c st _ h _ rfl rfl rfl rfl rfl (Nat.min_le_right _ _)
        · rw [if_neg hlt]
          exact inv_bump c st _ h rfl rfl rfl rfl rfl
      · have hrec' : st.isRecording = false := by
          cases hb : st.isRecording
          · rfl
          · exact absurd hb hrec
        simp only [hcap', hrec', Bool.and_false, Bool.false_eq_true, if_false]
        exact inv_bump c st _ h rfl rfl rfl rfl rfl

theorem inv_startRec (c : Category) (b u : String) (tp page : Nat) (st : ReaderState)
    (store : Store) (h : SessionInv c st) (hpage : page = st.currentPage) :
    (startRecordingForPage c b u tp page st store).1.timersByPage = st.timersByPage ∧
    SessionInv c (startRecordingForPage c b u tp page st store).1 := by
  cases c with
  | intensive =>
    unfold startRecordingForPage
    by_cases heff : (cappedD st page
        || ((persistedTimer st page).bind PageTimer.isCapped == some true)
        || (match (persistedTimer st page).bind PageTimer.recordedTotalSeconds with
            | some r => decide (600 ≤ r) | none => false)
        || decide (600 ≤ ((persistedTimer st page).map PageTimer.totalTime).getD 0)) = true
    · rw [if_pos heff]
      have h600 : 600 ≤ timersD st page := by
        rcases Bool.or_eq_true _ _ |>.mp heff with hx | hx
        · rcases Bool.or_eq_true _ _ |>.mp hx with hy | hy
          · rcases Bool.or_eq_true _ _ |>.mp hy with hz | hz
            · exact h.capped_ge page rfl hz
            · have hf : pCapFlag st page = some true := by
                unfold pCapFlag
                exact eq_of_beq hz
              exact le_trans (h.capflag_ge page hf) (h.persisted_le page)
          · rcases hrs : (persistedTimer st page).bind PageTimer.recordedTotalSeconds
              with _ | r
            · rw [hrs] at hy
              cases hy
            · rw [hrs] at hy
              have hr600 : 600 ≤ r := of_decide_eq_true hy
              have hpr : pRec st page = r := by
                unfold pRec
                rw [hrs]
                rfl
              exact le_trans (le_trans (by omega : 600 ≤ pRec st page) (h.prec_le page))
                (h.persisted_le page)
        · have hpt : 600 ≤ pTotal st page := by
            unfold pTotal
            exact of_decide_eq_true hx
          exact le_trans hpt (h.persisted_le page)
      by_cases hflag : ((persistedTimer st page).bind PageTimer.isCapped) = some true
      · rw [if_pos hflag]
        exact ⟨rfl, inv_cap_insert Category.intensive st _ h page rfl rfl rfl rfl rfl
          (fun _ => h600)⟩
      · rw [if_neg hflag]
        have hinv' : SessionInv Category.intensive
            { st with recordingStopped := true
                      cappedByPage := insertK st.cappedByPage page true } :=
          inv_cap_insert Category.intensive st _ h page rfl rfl rfl rfl rfl (fun _ => h600)
        obtain ⟨hTeq, hinvX⟩ := inv_persistCap Category.intensive b u tp page
          (max (((persistedTimer st page).bind PageTimer.recordedTotalSeconds).getD 0) 600)
          { st with recordingStopped := true
                    cappedByPage := insertK st.cappedByPage page true }
          store hinv' hpage h600
        exact ⟨hTeq, hinvX⟩
    · rw [if_neg heff]
      exact ⟨rfl, SessionInv_congr Category.intensive st _ rfl rfl rfl rfl rfl h⟩
  | extensive =>
    unfold startRecordingForPage
    by_cases hex : (exceededD st page
        || decide (420 ≤ lookupD st.timersByPage page 0)
        || decide (420 ≤ ((persistedTimer st page).map PageTimer.totalTime).getD 0)) = true
    · rw [if_pos hex]
      exact ⟨rfl, inv_cap_insert Category.extensive st _ h page rfl rfl rfl rfl rfl
        (fun hx => nomatch hx)⟩
    · rw [if_neg hex]
      exact ⟨rfl, SessionInv_congr Category.extensive st _ rfl rfl rfl rfl rfl h⟩

theorem finalize_inv (c : Category) (b u : String) (tp : Nat) (st : ReaderState)
    (store : Store) (h : SessionInv c st) :
    (finalizePageTime b u tp st.currentPage st store).2.1.timersByPage = st.timersByPage ∧
    (finalizePageTime b u tp st.currentPage st store).2.1.currentPage = st.currentPage ∧
    (finalizePageTime b u tp st.currentPage st store).2.1.progress =
      some (finalizePageTime b u tp st.currentPage st store).1 ∧
    SessionInv c (finalizePageTime b u tp st.currentPage st store).2.1 ∧
    (∀ q, pTotal (finalizePageTime b u tp st.currentPage st store).2.1 q = 0 ∨
      pTotal (finalizePageTime b u tp st.currentPage st store).2.1 q =
        timersD (finalizePageTime b u tp st.currentPage st store).2.1 q) := by
  have hbX : basePT (finalizePageTime b u tp st.currentPage st store).2.1 =
      insertK (basePT st) st.currentPage
        { pageNumber := st.currentPage
          totalTime := lookupD st.timersByPage st.currentPage 0
          exceedanceCount := match lookupK (basePT st) st.currentPage with
            | some t0 => t0.exceedanceCount
            | none => 0
          isCompleted := true
          recordedTotalSeconds := none
          isCapped := none } := rfl
  have hXT : (finalizePageTime b u tp st.currentPage st store).2.1.timersByPage =
      st.timersByPage := rfl
  have hXR : (finalizePageTime b u tp st.currentPage st store).2.1.recordedByPage =
      st.recordedByPage := rfl
  have hXC : (finalizePageTime b u tp st.currentPage st store).2.1.cappedByPage =
      st.cappedByPage := rfl
  have hXcp : (finalizePageTime b u tp st.currentPage st store).2.1.currentPage =
      st.currentPage := rfl
  have hpt : ∀ q, pTotal (finalizePageTime b u tp st.currentPage st store).2.1 q =
      if st.currentPage = q then timersD st st.currentPage else pTotal st q := by
    intro q
    rw [pTotal_basePT, hbX, lookupK_insertK]
    by_cases hq : st.currentPage = q
    · rw [if_pos hq, if_pos hq]
      rfl
    · rw [if_neg hq, if_neg hq, ← pTotal_basePT]
  have hpr : ∀ q, pRec (finalizePageTime b u tp st.currentPage st store).2.1 q =
      if st.currentPage = q then 0 else pRec st q := by
    intro q
    rw [pRec_basePT, hbX, lookupK_insertK]
    by_cases hq : st.currentPage = q
    · rw [if_pos hq, if_pos hq]
      rfl
    · rw [if_neg hq, if_neg hq, ← pRec_basePT]
  have hpf : ∀ q, pCapFlag (finalizePageTime b u tp st.currentPage st store).2.1 q =
      if st.currentPage = q then none else pCapFlag st q := by
    intro q
    rw [pCapFlag_basePT, hbX, lookupK_insertK]
    by_cases hq : st.currentPage = q
    · rw [if_pos hq, if_pos hq]
      rfl
    · rw [if_neg hq, if_neg hq, ← pCapFlag_basePT]
  refine ⟨hXT, hXcp, rfl, ?_, ?_⟩
  · constructor
    · intro q
      rw [hpt q, timersD_congr hXT]
      by_cases hq : st.currentPage = q
      · rw [if_pos hq, hq]
      · rw [if_neg hq]
        exact h.persisted_le q
    · intro q hq
      rw [hXcp] at hq
      rw [hpt q, if_neg (fun he => hq he.symm), timersD_congr hXT]
      exact h.persisted_eq q hq
    · intro q
      rw [recD_congr hXR, timersD_congr hXT]
      exact h.rec_le q
    · intro q
      rw [hpr q, hpt q]
      by_cases hq : st.currentPage = q
      · rw [if_pos hq, if_pos hq]
        omega
      · rw [if_neg hq, if_neg hq]
        exact h.prec_le q
    · intro q hc hcap
      rw [timersD_congr hXT]
      exact h.capped_ge q hc (by rw [← cappedD_congr hXC]; exact hcap)
    · intro q hf
      rw [hpf q] at hf
      rw [hpt q]
      by_cases hq : st.currentPage = q
      · rw [if_pos hq] at hf
        cases hf
      · rw [if_neg hq] at hf
        rw [if_neg hq]
        exact h.capflag_ge q hf
  · intro q
    rw [hpt q, timersD_congr hXT]
    by_cases hq : st.currentPage = q
    · rw [if_pos hq, hq]
      exact Or.inr rfl
    · rw [if_neg hq]
      exact h.persisted_eq q (fun he => hq he.symm)

theorem inv_enter_core (c : Category) (st2 : ReaderState) (newPage saved recSaved : Nat)
    (capB : Bool) (h : SessionInv c st2)
    (hck : ∀ q, pTotal st2 q = 0 ∨ pTotal st2 q = timersD st2 q)
    (hsaved : saved = timersD st2 newPage)
    (hrec : recSaved ≤ timersD st2 newPage)
    (hcap : c = Category.intensive → capB = true → 600 ≤ timersD st2 newPage) :
    (∀ q, timersD (enterCore st2 newPage saved recSaved capB) q = timersD st2 q) ∧
    SessionInv c (enterCore st2 newPage saved recSaved capB) := by
  have htq : ∀ q, timersD (enterCore st2 newPage saved recSaved capB) q = timersD st2 q := by
    intro q
    show lookupD (insertK st2.timersByPage newPage saved) q 0 = timersD st2 q
    rw [lookupD_insertK]
    by_cases hq : newPage = q
    · rw [if_pos hq, hsaved, hq]
    · rw [if_neg hq]
      rfl
  have hrq : ∀ q, recD (enterCore st2 newPage saved recSaved capB) q =
      if newPage = q then recSaved else recD st2 q := by
    intro q
    show lookupD (insertK st2.recordedByPage newPage recSaved) q 0 = _
    rw [lookupD_insertK]
    rfl
  have hcq : ∀ q, cappedD (enterCore st2 newPage saved recSaved capB) q =
      if newPage = q then capB else cappedD st2 q := by
    intro q
    show lookupD (insertK st2.cappedByPage newPage capB) q false = _
    rw [lookupD_insertK]
    rfl
  have hP : (enterCore st2 newPage saved recSaved capB).progress = st2.progress := rfl
  refine ⟨htq, ?_⟩
  constructor
  · intro q
    rw [pTotal_congr hP, htq q]
    exact h.persisted_le q
  · intro q _
    rw [pTotal_congr hP, htq q]
    exact hck q
  · intro q
    rw [hrq q, htq q]
    by_cases hq : newPage = q
    · rw [if_pos hq, ← hq]
      exact hrec
    · rw [if_neg hq]
      exact h.rec_le q
  · intro q
    rw [pRec_congr hP, pTotal_congr hP]
    exact h.prec_le q
  · intro q hc hcap'
    rw [htq q]
    rw [hcq q] at hcap'
    by_cases hq : newPage = q
    · rw [if_pos hq] at hcap'
      rw [← hq]
      exact hcap hc hcap'
    · rw [if_neg hq] at hcap'
      exact h.capped_ge q hc hcap'
  · intro q hf
    rw [pTotal_congr hP]
    exact h.capflag_ge q (by rw [← pCapFlag_congr hP]; exact hf)

theorem inv_enter (c : Category) (b u : String) (tp newPage : Nat) (P : BookProgress)
    (st2 : ReaderState) (store : Store) (h : SessionInv c st2)
    (hck : ∀ q, pTotal st2 q = 0 ∨ pTotal st2 q = timersD st2 q)
    (hprogP : st2.progress = some P) :
    (∀ q, timersD st2 q ≤ timersD (enterPage c b u tp P newPage st2 store).1 q) ∧
    SessionInv c (enterPage c b u tp P newPage st2 store).1 := by
  have hptP : persistedTimer st2 newPage = lookupK P.pageTimers newPage := by
    unfold persistedTimer
    rw [hprogP]
  have hA : (Option.map PageTimer.totalTime (lookupK P.pageTimers newPage)).getD 0 =
      pTotal st2 newPage := by
    rw [← hptP]
    rfl
  have hB : (Option.bind (lookupK P.pageTimers newPage) PageTimer.recordedTotalSeconds).getD 0 =
      pRec st2 newPage := by
    rw [← hptP]
    rfl
  have hF : (Option.bind (lookupK P.pageTimers newPage) PageTimer.isCapped) =
      pCapFlag st2 newPage := by
    rw [← hptP]
    rfl
  have hsa : jsOrN ((Option.map PageTimer.totalTime (lookupK P.pageTimers newPage)).getD 0)
      (lookupD st2.timersByPage newPage 0) = timersD st2 newPage := by
    rw [hA]
    unfold jsOrN
    by_cases hz : pTotal st2 newPage = 0
    · rw [if_pos hz]
      rfl
    · rw [if_neg hz]
      rcases hck newPage with h0 | heq
      · exact absurd h0 hz
      · exact heq
  have hre : jsOrN ((Option.bind (lookupK P.pageTimers newPage)
        PageTimer.recordedTotalSeconds).getD 0)
      (jsOrN (lookupD st2.recordedByPage newPage 0)
        (if 600 ≤ (Option.map PageTimer.totalTime (lookupK P.pageTimers newPage)).getD 0
          then 600 else 0)) ≤ timersD st2 newPage := by
    rcases jsOrN_eq_or ((Option.bind (lookupK P.pageTimers newPage)
        PageTimer.recordedTotalSeconds).getD 0)
      (jsOrN (lookupD st2.recordedByPage newPage 0)
        (if 600 ≤ (Option.map PageTimer.totalTime (lookupK P.pageTimers newPage)).getD 0
          then 600 else 0)) with h1 | h1
    · rw [h1, hB]
      exact le_trans (h.prec_le newPage) (h.persisted_le newPage)
    · rw [h1]
      rcases jsOrN_eq_or (lookupD st2.recordedByPage newPage 0)
        (if 600 ≤ (Option.map PageTimer.totalTime (lookupK P.pageTimers newPage)).getD 0
          then 600 else 0) with h2 | h2
      · rw [h2]
        exact h.rec_le newPage
      · rw [h2]
        by_cases h6 : 600 ≤ (Option.map PageTimer.totalTime (lookupK P.pageTimers
            newPage)).getD 0
        · rw [if_pos h6]
          rw [hA] at h6
          exact le_trans h6 (h.persisted_le newPage)
        · rw [if_neg h6]
          exact Nat.zero_le _
  have hcapB : c = Category.intensive →
      (((Option.bind (lookupK P.pageTimers newPage) PageTimer.isCapped) == some true)
        || cappedD st2 newPage
        || decide (600 ≤ (Option.bind (lookupK P.pageTimers newPage)
              PageTimer.recordedTotalSeconds).getD 0)
        || decide (600 ≤ (Option.map PageTimer.totalTime
              (lookupK P.pageTimers newPage)).getD 0)) = true →
      600 ≤ timersD st2 newPage := by
    intro hc hcap
    rcases Bool.or_eq_true _ _ |>.mp hcap with hx | hx
    · rcases Bool.or_eq_true _ _ |>.mp hx with hy | hy
      · rcases Bool.or_eq_true _ _ |>.mp hy with hz | hz
        · have : pCapFlag st2 newPage = some true := by
            rw [← hF]
            exact eq_of_beq hz
          exact le_trans (h.capflag_ge newPage this) (h.persisted_le newPage)
        · exact h.capped_ge newPage hc hz
      · have h6 : 600 ≤ pRec st2 newPage := by
          rw [← hB]
          exact of_decide_eq_true hy
        exact le_trans (le_trans h6 (h.prec_le newPage)) (h.persisted_le newPage)
    · have h6 : 600 ≤ pTotal st2 newPage := by
        rw [← hA]
        exact of_decide_eq_true hx
      exact le_trans h6 (h.persisted_le newPage)
  obtain ⟨heqs, hinv5⟩ := inv_enter_core c st2 newPage
    (jsOrN ((Option.map PageTimer.totalTime (lookupK P.pageTimers newPage)).getD 0)
      (lookupD st2.timersByPage newPage 0))
    (jsOrN ((Option.bind (lookupK P.pageTimers newPage)
        PageTimer.recordedTotalSeconds).getD 0)
      (jsOrN (lookupD st2.recordedByPage newPage 0)
        (if 600 ≤ (Option.map PageTimer.totalTime (lookupK P.pageTimers newPage)).getD 0
          then 600 else 0)))
    (((Option.bind (lookupK P.pageTimers newPage) PageTimer.isCapped) == some true)
      || cappedD st2 newPage
      || decide (600 ≤ (Option.bind (lookupK P.pageTimers newPage)
            PageTimer.recordedTotalSeconds).getD 0)
      || decide (600 ≤ (Option.map PageTimer.totalTime
            (lookupK P.pageTimers newPage)).getD 0))
    h hck hsa hre hcapB
  obtain ⟨hT6, hinv6⟩ := inv_startRec c b u tp newPage _ store hinv5 rfl
  exact ⟨fun q => le_of_eq (Eq.trans (heqs q).symm (timersD_congr hT6 q).symm), hinv6⟩

theorem handleNext_inv (c : Category) (b u : String) (tp : Nat) (pathOpt : Option String)
    (st : ReaderState) (store : Store) (h : SessionInv c st) :
    (∀ q, timersD st q ≤ timersD (handleNextPage c b u tp pathOpt st store).1 q) ∧
    SessionInv c (handleNextPage c b u tp pathOpt st store).1 := by
  unfold handleNextPage
  by_cases hg : lookupD st.timersByPage st.currentPage 0 < 120
  · rw [if_pos hg]
    exact ⟨fun q => le_refl _, h⟩
  · rw [if_neg hg]
    by_cases hlt : st.currentPage < tp
    · rw [if_pos hlt]
      have h1 := stopCurrentRecording_fields pathOpt st
      have hinv1 : SessionInv c (stopCurrentRecording pathOpt st) :=
        SessionInv_congr c st _ h1.1 h1.2.1 h1.2.2.1 h1.2.2.2.1 h1.2.2.2.2 h
      obtain ⟨hT2, _, hprog2, hinv2, hck2⟩ :=
        finalize_inv c b u tp (stopCurrentRecording pathOpt st) store hinv1
      obtain ⟨hmono3, hinv3⟩ := inv_enter c b u tp
        ((finalizePageTime b u tp (stopCurrentRecording pathOpt st).currentPage
          (stopCurrentRecording pathOpt st) store).2.1.currentPage + 1)
        (finalizePageTime b u tp (stopCurrentRecording pathOpt st).currentPage
          (stopCurrentRecording pathOpt st) store).1
        (finalizePageTime b u tp (stopCurrentRecording pathOpt st).currentPage
          (stopCurrentRecording pathOpt st) store).2.1
        (finalizePageTime b u tp (stopCurrentRecording pathOpt st).currentPage
          (stopCurrentRecording pathOpt st) store).2.2
        hinv2 hck2 hprog2
      refine ⟨?_, hinv3⟩
      intro q
      have e1 : timersD st q = timersD (stopCurrentRecording pathOpt st) q :=
        (timersD_congr h1.1 q).symm
      have e2 : timersD (stopCurrentRecording pathOpt st) q =
          timersD (finalizePageTime b u tp (stopCurrentRecording pathOpt st).currentPage
            (stopCurrentRecording pathOpt st) store).2.1 q :=
        (timersD_congr hT2 q).symm
      exact le_trans (le_of_eq (e1.trans e2)) (hmono3 q)
    · rw [if_neg hlt]
      exact ⟨fun q => le_refl _, h⟩

theorem handlePrev_inv (c : Category) (b u : String) (tp : Nat) (pathOpt : Option String)
    (st : ReaderState) (store : Store) (h : SessionInv c st) :
    (∀ q, timersD st q ≤ timersD (handlePreviousPage c b u tp pathOpt st store).1 q) ∧
    SessionInv c (handlePreviousPage c b u tp pathOpt st store).1 := by
  unfold handlePreviousPage
  by_cases hgt : 1 < st.currentPage
  · rw [if_pos hgt]
    have h1 := stopCurrentRecording_fields pathOpt st
    have hinv1 : SessionInv c (stopCurrentRecording pathOpt st) :=
      SessionInv_congr c st _ h1.1 h1.2.1 h1.2.2.1 h1.2.2.2.1 h1.2.2.2.2 h
    obtain ⟨hT2, _, hprog2, hinv2, hck2⟩ :=
      finalize_inv c b u tp (stopCurrentRecording pathOpt st) store hinv1
    obtain ⟨hmono3, hinv3⟩ := inv_enter c b u tp
      ((finalizePageTime b u tp (stopCurrentRecording pathOpt st).currentPage
        (stopCurrentRecording pathOpt st) store).2.1.currentPage - 1)
      (finalizePageTime b u tp (stopCurrentRecording pathOpt st).currentPage
        (stopCurrentRecording pathOpt st) store).1
      (finalizePageTime b u tp (stopCurrentRecording pathOpt st).currentPage
        (stopCurrentRecording pathOpt st) store).2.1
      (finalizePageTime b u tp (stopCurrentRecording pathOpt st).currentPage
        (stopCurrentRecording pathOpt st) store).2.2
      hinv2 hck2 hprog2
    refine ⟨?_, hinv3⟩
    intro q
    have e1 : timersD st q = timersD (stopCurrentRecording pathOpt st) q :=
      (timersD_congr h1.1 q).symm
    have e2 : timersD (stopCurrentRecording pathOpt st) q =
        timersD (finalizePageTime b u tp (stopCurrentRecording pathOpt st).currentPage
          (stopCurrentRecording pathOpt st) store).2.1 q :=
      (timersD_congr hT2 q).symm
    exact le_trans (le_of_eq (e1.trans e2)) (hmono3 q)
  · rw [if_neg hgt]
    exact ⟨fun q => le_refl _, h⟩

theorem applyNav_inv (c : Category) (b u : String) (tp : Nat) (op : NavOp)
    (st : ReaderState) (store : Store) (h : SessionInv c st) :
    (∀ q, timersD st q ≤ timersD (applyNav c b u tp op st store).1 q) ∧
    SessionInv c (applyNav c b u tp op st store).1 := by
  cases op with
  | tickOp => exact tick_inv c b u tp st store h
  | nextOp pathOpt => exact handleNext_inv c b u tp pathOpt st store h
  | prevOp pathOpt => exact handlePrev_inv c b u tp pathOpt st store h

theorem runNav_inv (c : Category) (b u : String) (tp : Nat) (ops : List NavOp) :
    ∀ (st : ReaderState) (store : Store), SessionInv c st →
    (∀ q, timersD st q ≤ timersD (runNav c b u tp ops st store).1 q) ∧
    SessionInv c (runNav c b u tp ops st store).1 := by
  induction ops with
  | nil => exact fun st store h => ⟨fun q => le_refl _, h⟩
  | cons op rest ih =>
    intro st store h
    obtain ⟨hm1, hinv1⟩ := applyNav_inv c b u tp op st store h
    obtain ⟨hm2, hinv2⟩ := ih (applyNav c b u tp op st store).1
      (applyNav c b u tp op st store).2 hinv1
    exact ⟨fun q => le_trans (hm1 q) (hm2 q), hinv2⟩

theorem runNav_append (c : Category) (b u : String) (tp : Nat) (l1 l2 : List NavOp)
    (st : ReaderState) (store : Store) :
    runNav c b u tp (l1 ++ l2) st store =
      runNav c b u tp l2 (runNav c b u tp l1 st store).1
        (runNav c b u tp l1 st store).2 := by
  unfold runNav
  rw [List.foldl_append]

theorem inv_initial (c : Category) : SessionInv c initialReaderState := by
  constructor
  · intro q
    exact Nat.zero_le _
  · intro q _
    exact Or.inl rfl
  · intro q
    exact Nat.zero_le _
  · intro q
    exact le_refl _
  · intro q _ hcap
    cases hcap
  · intro q hf
    cases hf

/-- C8: starting from any session state satisfying the controller invariant
(in particular the fresh mount state), for every page and every sequence of
tick/Next/Prev operations that revisit it, the live stopwatch value
`totalTimeSeconds` is monotonically non-decreasing across any continuation of
the sequence, and after every operation sequence the invariant
`recordedTotalSeconds ≤ totalTimeSeconds` holds for every page, both for the
in-memory maps (`recD ≤ timersD`) and for the persisted `ReadingProgress`
record (`pRec ≤ pTotal`). -/
theorem timers_monotone_and_recorded_le (c : Category) (b u : String) (tp : Nat)
    (st : ReaderState) (store : Store) (h : SessionInv c st) (l1 l2 : List NavOp) :
    (∀ q, timersD (runNav c b u tp l1 st store).1 q ≤
        timersD (runNav c b u tp (l1 ++ l2) st store).1 q) ∧
    (∀ q, recD (runNav c b u tp (l1 ++ l2) st store).1 q ≤
        timersD (runNav c b u tp (l1 ++ l2) st store).1 q) ∧
    (∀ q, pRec (runNav c b u tp (l1 ++ l2) st store).1 q ≤
        pTotal (runNav c b u tp (l1 ++ l2) st store).1 q) := by
  obtain ⟨hm1, hinv1⟩ := runNav_inv c b u tp l1 st store h
  obtain ⟨hm2, hinv2⟩ := runNav_inv c b u tp l2 (runNav c b u tp l1 st store).1
    (runNav c b u tp l1 st store).2 hinv1
  have happ := runNav_append c b u tp l1 l2 st store
  refine ⟨?_, ?_, ?_⟩
  · intro q
    rw [happ]
    exact hm2 q
  · intro q
    rw [happ]
    exact hinv2.rec_le q
  · intro q
    rw [happ]
    exact hinv2.prec_le q

theorem timers_monotone_and_recorded_le_witness :
    timersD (runNav Category.intensive "book1" "user1" 3
        [NavOp.tickOp, NavOp.tickOp] initialReaderState storeEmpty).1 1 ≤
      timersD (runNav Category.intensive "book1" "user1" 3
        ([NavOp.tickOp, NavOp.tickOp] ++ [NavOp.tickOp, NavOp.nextOp none, NavOp.tickOp])
        initialReaderState storeEmpty).1 1 :=
  (timers_monotone_and_recorded_le Category.intensive "book1" "user1" 3
    initialReaderState storeEmpty (inv_initial Category.intensive)
    [NavOp.tickOp, NavOp.tickOp]
    [NavOp.tickOp, NavOp.nextOp none, NavOp.tickOp]).1 1

end VidEng
